import Mathlib

/-!
# SportsBuddy — verification of the spec against the source

A shallow embedding of the core pipeline of the SportsBuddy repository
(data formatter, response parser, MLB API client cache, MCP client circuit
breaker, request orchestrator), together with proofs and refutations of the
frozen claims about it.

Conventions used throughout the embedding:
* JavaScript values flowing through the formatter are modelled by `JSVal`
  (a finite number, `NaN`, a string, or `undefined`); machine floats are
  idealised as rationals.
* JavaScript strings are modelled as `List Char`; `toLowerCase` is ASCII
  lowering (the texts handled by the parser are ASCII).
* Functions that can raise a JavaScript exception return `Except String _`.
* Wall-clock instants (`Date.now()`) are natural numbers (milliseconds).
-/

namespace SportsBuddy

/-- A JavaScript value as seen by the formatter: a (finite) number, the
number `NaN`, a string, or `undefined`.  `typeof` is `"number"` for both
`num` and `nan`. -/
inductive JSVal where
  | num (q : ℚ)
  | nan
  | str (s : String)
  | undef
deriving DecidableEq, Repr

/-- JavaScript truthiness for the values we model (`0`, `NaN`, `""` and
`undefined` are falsy). -/
def JSVal.truthy : JSVal → Bool
  | .num q => q != 0
  | .nan => false
  | .str s => s != ""
  | .undef => false

/-- `x || d` on an optional field: the field's value when present and
truthy, otherwise the default (source: `data-formatter.js`, the
`stats.wins || 0` idiom). -/
def jsOr (v : Option JSVal) (d : JSVal) : JSVal :=
  match v with
  | some x => if x.truthy then x else d
  | none => d

/-- `DataFormatter.calculateAdvantage` (`data-formatter.js:163-174`).

JavaScript semantics mirrored case by case:
* a non-number argument fails the `typeof` guard and yields `"Even"`;
* two finite numbers: `percentDiff = (|v1-v2| / ((v1+v2)/2)) * 100` is a
  real-number computation when the average is nonzero; when the average is
  zero the division yields `NaN` or `±Infinity`, neither of which is `< 5`,
  so the comparison branch is taken;
* a `NaN` argument passes the `typeof` guard, makes `percentDiff` `NaN`
  and makes `value1 > value2` false, so the result is `"Opponent"`. -/
def calculateAdvantage (v1 v2 : JSVal) : String :=
  match v1, v2 with
  | .str _, _ => "Even"
  | _, .str _ => "Even"
  | .undef, _ => "Even"
  | _, .undef => "Even"
  | .num a, .num b =>
    let diff := |a - b|
    let avg := (a + b) / 2
    if avg ≠ 0 ∧ diff / avg * 100 < 5 then "Even"
    else if a > b then "Giants" else "Opponent"
  | .nan, _ => "Opponent"
  | _, .nan => "Opponent"

/-- The claimed "Even band": the absolute difference of the two values is
under 5% of their average. -/
def evenBand (a b : ℚ) : Prop :=
  |a - b| < 5 / 100 * ((a + b) / 2)

instance (a b : ℚ) : Decidable (evenBand a b) := by
  unfold evenBand; infer_instance

/-! ## Character and string helpers shared by the formatter and the parser -/

/-- ASCII whitespace as matched by JavaScript's `\s` (the texts we model are
ASCII). -/
def isWsChar (c : Char) : Bool :=
  c = ' ' || c = '\t' || c = '\n' || c = '\r' || c = '\x0b' || c = '\x0c'

/-- ASCII lowering, modelling `String.prototype.toLowerCase` / the regex
`i` flag on the ASCII texts handled by this program. -/
def toLowerChar (c : Char) : Char :=
  if 'A' ≤ c ∧ c ≤ 'Z' then Char.ofNat (c.toNat + 32) else c

/-- Numeric value of a run of decimal digits (`parseInt` on a digit run). -/
def digitsVal (ds : List Char) : ℕ :=
  ds.foldl (fun n c => 10 * n + (c.toNat - 48)) 0

/-- Substring containment (`String.prototype.includes` on `List Char`). -/
def isSubstrOf (needle : List Char) : List Char → Bool
  | [] => needle.isEmpty
  | c :: t => needle.isPrefixOf (c :: t) || isSubstrOf needle t

/-- `parseFloat` on a character list: optional leading whitespace, optional
sign, decimal digits with an optional fractional part; `none` when no digit
is found (JavaScript returns `NaN`).  Exponent notation does not occur in
the statistic strings this program parses and is not modelled. -/
def parseLeadingFloat (cs : List Char) : Option ℚ :=
  let cs := cs.dropWhile isWsChar
  let (neg, cs) :=
    match cs with
    | '-' :: t => (true, t)
    | '+' :: t => (false, t)
    | _ => (false, cs)
  let intDigits := cs.takeWhile Char.isDigit
  let rest := cs.dropWhile Char.isDigit
  let fracDigits :=
    match rest with
    | '.' :: t => t.takeWhile Char.isDigit
    | _ => []
  if intDigits.isEmpty ∧ fracDigits.isEmpty then none
  else
    let v : ℚ := (digitsVal intDigits : ℚ) + (digitsVal fracDigits : ℚ) / (10 ^ fracDigits.length : ℕ)
    some (if neg then -v else v)

/-- `parseFloat` lifted to `JSVal` (`parseFloat(undefined)` is `NaN`;
a finite number round-trips through its decimal form, idealised as the
identity). -/
def jsParseFloat : JSVal → JSVal
  | .num q => .num q
  | .nan => .nan
  | .undef => .nan
  | .str s => match parseLeadingFloat s.data with
    | some q => .num q
    | none => .nan

/-- Rendering of a `JSVal` inside a template literal.  (JavaScript's exact
number formatting differs from `toString ℚ` in general; the rendered
strings are display-only and no claim inspects them.) -/
def JSVal.render : JSVal → String
  | .num q => toString q
  | .nan => "NaN"
  | .str s => s
  | .undef => "undefined"

/-- Truthiness of an optional field (`undefined` is falsy). -/
def jsTruthy (v : Option JSVal) : Bool :=
  (v.getD .undef).truthy

/-- `s || d` on an optional string field. -/
def strOr (o : Option String) (d : String) : String :=
  match o with
  | some s => if s = "" then d else s
  | none => d

/-! ## DataFormatter — data model (`data-formatter.js`) -/

/-- The self team's id (`this.giantsTeamId = 137`). -/
def giantsTeamId : ℤ := 137

structure LeagueRecord where
  wins : ℕ
  losses : ℕ
  pct : String
deriving DecidableEq, Repr

structure Team where
  id : ℤ
  name : String
deriving DecidableEq, Repr

/-- One side of a fixture: schedule games carry a `leagueRecord`, completed
games carry a `score`; either may be absent upstream. -/
structure SideInfo where
  team : Team
  leagueRecord : Option LeagueRecord := none
  score : Option ℚ := none
deriving DecidableEq, Repr

structure GameTeams where
  home : SideInfo
  away : SideInfo
deriving DecidableEq, Repr

structure Venue where
  name : String
deriving DecidableEq, Repr

/-- A raw game record from the schedule/feed endpoints (the fields the
formatter reads). -/
structure Game where
  gamePk : ℕ
  gameDate : String
  venue : Venue
  teams : GameTeams
  gameType : String := "R"
  gameNumber : ℕ := 1
  gamesInSeries : Option ℕ := none
  seriesGameNumber : Option ℕ := none
  seriesDescription : Option String := none
deriving DecidableEq, Repr

/-- A raw season-stats blob (`stats[0].splits[0].stat`); every field is
optional in the upstream JSON.  The same shape serves team stats and
pitcher season stats (JavaScript objects are open records). -/
structure StatBlob where
  wins : Option JSVal := none
  losses : Option JSVal := none
  winPercentage : Option JSVal := none
  runsPerGame : Option JSVal := none
  homeRuns : Option JSVal := none
  avg : Option JSVal := none
  obp : Option JSVal := none
  slg : Option JSVal := none
  ops : Option JSVal := none
  earnedRunAverage : Option JSVal := none
  whip : Option JSVal := none
  strikeOuts : Option JSVal := none
  homeRunsAllowed : Option JSVal := none
  qualityStarts : Option JSVal := none
  saves : Option JSVal := none
  errors : Option JSVal := none
  fieldingPercentage : Option JSVal := none
  doublePlays : Option JSVal := none
  homeWins : Option JSVal := none
  homeLosses : Option JSVal := none
  awayWins : Option JSVal := none
  awayLosses : Option JSVal := none
  last10 : Option JSVal := none
  oneRunWins : Option JSVal := none
  oneRunLosses : Option JSVal := none
  era : Option JSVal := none
  baseOnBalls : Option JSVal := none
  inningsPitched : Option JSVal := none
  groundOuts : Option JSVal := none
  airOuts : Option JSVal := none
deriving DecidableEq, Repr

structure StatSplit where
  stat : StatBlob
deriving DecidableEq, Repr

/-- One entry of the raw `stats` array; its `splits` array may be missing. -/
structure StatsEntry where
  splits : Option (List StatSplit) := none
deriving DecidableEq, Repr

/-- The raw team-stats (or player-stats) response body; the `stats` array
may be missing. -/
structure TeamStatsRaw where
  stats : Option (List StatsEntry) := none
deriving DecidableEq, Repr

/-! ### `formatGameContext` -/

structure SeriesInfo where
  gamesInSeries : Option ℕ
  seriesGameNumber : Option ℕ
  seriesDescription : Option String
deriving DecidableEq, Repr

structure GameContext where
  date : String
  venue : String
  isHomeGame : Bool
  opponentName : String
  opponentId : ℤ
  opponentRecord : Option LeagueRecord
  giantsRecord : Option LeagueRecord
  gameType : String
  gameNumber : ℕ
  seriesInfo : SeriesInfo
deriving DecidableEq, Repr

/-- `DataFormatter.formatGameContext` (`data-formatter.js:59-82`). -/
def formatGameContext (game : Game) (opponent : Team) (isHomeGame : Bool) : GameContext :=
  { date := game.gameDate
    venue := game.venue.name
    isHomeGame := isHomeGame
    opponentName := opponent.name
    opponentId := opponent.id
    opponentRecord :=
      if game.teams.away.team.id = opponent.id then game.teams.away.leagueRecord
      else game.teams.home.leagueRecord
    giantsRecord :=
      if isHomeGame then game.teams.home.leagueRecord else game.teams.away.leagueRecord
    gameType := game.gameType
    gameNumber := game.gameNumber
    seriesInfo := ⟨game.gamesInSeries, game.seriesGameNumber, game.seriesDescription⟩ }

/-! ### `extractKeyTeamStats` -/

structure RecordStats where
  wins : JSVal
  losses : JSVal
  winPercentage : JSVal
deriving DecidableEq, Repr

structure OffenseStats where
  runsPerGame : JSVal
  homeRuns : JSVal
  battingAverage : JSVal
  onBasePercentage : JSVal
  sluggingPercentage : JSVal
  ops : JSVal
deriving DecidableEq, Repr

structure PitchingStats where
  earnedRunAverage : JSVal
  whip : JSVal
  strikeOuts : JSVal
  homeRunsAllowed : JSVal
  qualityStarts : JSVal
  saves : JSVal
deriving DecidableEq, Repr

structure FieldingStats where
  errors : JSVal
  fieldingPercentage : JSVal
  doublePlays : JSVal
deriving DecidableEq, Repr

structure SituationalStats where
  homeRecord : JSVal
  awayRecord : JSVal
  last10 : JSVal
  oneRunGames : JSVal
deriving DecidableEq, Repr

/-- Result of `extractKeyTeamStats`: either the `{available:false}` marker
object or the full `{available:true, ...}` object. -/
inductive KeyTeamStats where
  | unavailable
  | available (record : RecordStats) (offense : OffenseStats) (pitching : PitchingStats)
      (fielding : FieldingStats) (situational : SituationalStats)
deriving DecidableEq, Repr

/-- `stats.homeWins && stats.homeLosses ? `${homeWins}-${homeLosses}` : 'N/A'`
(note that a count of `0` is falsy and yields `'N/A'`). -/
def recordStr (a b : Option JSVal) : JSVal :=
  if jsTruthy a ∧ jsTruthy b then
    .str ((a.getD .undef).render ++ "-" ++ (b.getD .undef).render)
  else .str "N/A"

/-- `DataFormatter.extractKeyTeamStats` (`data-formatter.js:94-142`).

The guard covers a missing `teamStats`, a missing `stats` array and an
empty `stats` array; the subsequent unguarded access
`teamStats.stats[0].splits[0].stat` raises a `TypeError` when the first
entry's `splits` array is missing or empty — modelled by the `.error`
branches. -/
def extractKeyTeamStats (teamStats : Option TeamStatsRaw) : Except String KeyTeamStats :=
  match teamStats with
  | none => .ok .unavailable
  | some ts =>
    match ts.stats with
    | none => .ok .unavailable
    | some [] => .ok .unavailable
    | some (e :: _) =>
      match e.splits with
      | none => .error "TypeError: Cannot read properties of undefined (reading '0')"
      | some [] => .error "TypeError: Cannot read properties of undefined (reading 'stat')"
      | some (sp :: _) =>
        let stats := sp.stat
        .ok (.available
          { wins := jsOr stats.wins (.num 0)
            losses := jsOr stats.losses (.num 0)
            winPercentage := jsOr stats.winPercentage (.str "0.000") }
          { runsPerGame := jsOr stats.runsPerGame (.num 0)
            homeRuns := jsOr stats.homeRuns (.num 0)
            battingAverage := jsOr stats.avg (.str "0.000")
            onBasePercentage := jsOr stats.obp (.str "0.000")
            sluggingPercentage := jsOr stats.slg (.str "0.000")
            ops := jsOr stats.ops (.str "0.000") }
          { earnedRunAverage := jsOr stats.earnedRunAverage (.num 0)
            whip := jsOr stats.whip (.num 0)
            strikeOuts := jsOr stats.strikeOuts (.num 0)
            homeRunsAllowed := jsOr stats.homeRunsAllowed (.num 0)
            qualityStarts := jsOr stats.qualityStarts (.num 0)
            saves := jsOr stats.saves (.num 0) }
          { errors := jsOr stats.errors (.num 0)
            fieldingPercentage := jsOr stats.fieldingPercentage (.str "0.000")
            doublePlays := jsOr stats.doublePlays (.num 0) }
          { homeRecord := recordStr stats.homeWins stats.homeLosses
            awayRecord := recordStr stats.awayWins stats.awayLosses
            last10 := jsOr stats.last10 (.str "N/A")
            oneRunGames := recordStr stats.oneRunWins stats.oneRunLosses })

/-! ### `compareTeamStats` and `formatTeamStats` -/

/-- Result of `compareTeamStats`: the `{available:false}` marker or the
advantage labels. -/
inductive TeamComparison where
  | unavailable
  | available (offensiveAdvantage pitchingAdvantage recordAdvantage homeFieldAdvantage : String)
deriving DecidableEq, Repr

/-- `DataFormatter.compareTeamStats` (`data-formatter.js:145-160`); it
re-extracts both sides' key stats. -/
def compareTeamStats (giantsStats opponentStats : Option TeamStatsRaw) :
    Except String TeamComparison := do
  let giants ← extractKeyTeamStats giantsStats
  let opponent ← extractKeyTeamStats opponentStats
  match giants, opponent with
  | .available grec goff gpit _ gsit, .available orec ooff opit _ _ =>
    return .available
      (calculateAdvantage goff.ops ooff.ops)
      (calculateAdvantage opit.earnedRunAverage gpit.earnedRunAverage)
      (calculateAdvantage grec.winPercentage orec.winPercentage)
      (if gsit.homeRecord ≠ .str "N/A" then "Giants" else "Neutral")
  | _, _ => return .unavailable

structure TeamStatsBlock where
  giants : KeyTeamStats
  opponent : KeyTeamStats
  comparison : TeamComparison
deriving DecidableEq, Repr

/-- `DataFormatter.formatTeamStats` (`data-formatter.js:85-91`). -/
def formatTeamStats (giantsStats opponentStats : Option TeamStatsRaw) :
    Except String TeamStatsBlock := do
  let g ← extractKeyTeamStats giantsStats
  let o ← extractKeyTeamStats opponentStats
  let c ← compareTeamStats giantsStats opponentStats
  return ⟨g, o, c⟩

/-! ### Recent performance -/

/-- JavaScript `>` on two possibly-undefined numbers: false when either is
missing. -/
def optGt (a b : Option ℚ) : Bool :=
  match a, b with
  | some x, some y => x > y
  | _, _ => false

/-- JavaScript `<` on two possibly-undefined numbers. -/
def optLt (a b : Option ℚ) : Bool :=
  match a, b with
  | some x, some y => x < y
  | _, _ => false

/-- Which side is "the team" in `analyzeRecentGames`: with a team id the
home side matches on id, without one the home side is always taken. -/
def recentIsHome (teamId : Option ℤ) (g : Game) : Bool :=
  match teamId with
  | some t => g.teams.home.team.id = t
  | none => true

def recentTeamScore (teamId : Option ℤ) (g : Game) : Option ℚ :=
  if recentIsHome teamId g then g.teams.home.score else g.teams.away.score

def recentOppScore (teamId : Option ℤ) (g : Game) : Option ℚ :=
  if recentIsHome teamId g then g.teams.away.score else g.teams.home.score

def recentIsWin (teamId : Option ℤ) (g : Game) : Bool :=
  optGt (recentTeamScore teamId g) (recentOppScore teamId g)

/-- `DataFormatter.calculateStreak` (`data-formatter.js:226-249`): length
of the initial run of same-result games, tagged `W`/`L` by the first
game's result. -/
def calculateStreak (games : List Game) (teamId : Option ℤ) : String :=
  match games with
  | [] => "N/A"
  | g :: rest =>
    let firstWin := recentIsWin teamId g
    let streak := 1 + (rest.takeWhile (fun g' => recentIsWin teamId g' = firstWin)).length
    (if firstWin then "W" else "L") ++ toString streak

/-- Sum of the team's scores with JavaScript `NaN` propagation: an
undefined score poisons the whole sum. -/
def sumScoresNaN (teamId : Option ℤ) (games : List Game) : Option ℚ :=
  games.foldl
    (fun acc g =>
      match acc, recentTeamScore teamId g with
      | some a, some s => some (a + s)
      | _, _ => none)
    (some 0)

/-- `DataFormatter.identifyTrends` (`data-formatter.js:252-278`): compares
the average runs of the five most recent games with the preceding five.
`previous5` may be short or empty (`sum/0` is `NaN`, so no trend fires). -/
def identifyTrends (games : List Game) (teamId : Option ℤ) : List String :=
  if games.length < 5 then []
  else
    let recent5 := games.take 5
    let previous5 := (games.drop 5).take 5
    let recentAvg := (sumScoresNaN teamId recent5).map (· / 5)
    let previousAvg :=
      match sumScoresNaN teamId previous5 with
      | some s => if previous5.length = 0 then none else some (s / previous5.length)
      | none => none
    if optGt recentAvg (previousAvg.map (· + 1/2)) then ["Offense improving"]
    else if optLt recentAvg (previousAvg.map (· - 1/2)) then ["Offense struggling"]
    else []

/-- Result of `analyzeRecentGames`: the `{available:false}` marker or the
aggregate summary.  The per-game rate fields are kept as exact rationals
(the source renders them with `toFixed`; no claim inspects the rendered
form). -/
inductive RecentAnalysis where
  | unavailable
  | available (record : String) (winPercentage runsPerGame runsAllowedPerGame : ℚ)
      (runDifferential : ℚ) (homeRecord : String) (streak : String) (trends : List String)
deriving DecidableEq, Repr

/-- `DataFormatter.analyzeRecentGames` (`data-formatter.js:185-223`). -/
def analyzeRecentGames (games : Option (List Game)) (teamId : Option ℤ) : RecentAnalysis :=
  match games with
  | none => .unavailable
  | some [] => .unavailable
  | some gs =>
    let recentGames := gs.take 10
    let n : ℚ := recentGames.length
    let wins := (recentGames.filter (recentIsWin teamId)).length
    let runs := recentGames.foldl (fun a g => a + (recentTeamScore teamId g).getD 0) 0
    let runsAllowed := recentGames.foldl (fun a g => a + (recentOppScore teamId g).getD 0) 0
    let homeGames := (recentGames.filter (recentIsHome teamId)).length
    let homeWins :=
      (recentGames.filter (fun g => recentIsHome teamId g && recentIsWin teamId g)).length
    .available
      (toString wins ++ "-" ++ toString (recentGames.length - wins))
      ((wins : ℚ) / n) (runs / n) (runsAllowed / n) (runs - runsAllowed)
      (if homeGames > 0 then toString homeWins ++ "-" ++ toString (homeGames - homeWins)
       else "N/A")
      (calculateStreak recentGames teamId)
      (identifyTrends recentGames teamId)

structure RecentBlock where
  giants : RecentAnalysis
  opponent : RecentAnalysis
deriving DecidableEq, Repr

/-- `DataFormatter.formatRecentPerformance` (`data-formatter.js:177-182`):
the self side passes the team id, the opponent side does not. -/
def formatRecentPerformance (giantsGames opponentGames : Option (List Game)) : RecentBlock :=
  ⟨analyzeRecentGames giantsGames (some giantsTeamId), analyzeRecentGames opponentGames none⟩

/-! ### Pitching matchup -/

structure Pitcher where
  id : ℤ
  fullName : String
  pitchHandDescription : Option String := none
deriving DecidableEq, Repr

structure ProbablePitchers where
  home : Option Pitcher := none
  away : Option Pitcher := none
deriving DecidableEq, Repr

structure PitcherSeasonStats where
  wins : JSVal
  losses : JSVal
  era : JSVal
  whip : JSVal
  strikeOuts : JSVal
  walks : JSVal
  inningsPitched : JSVal
  homeRunsAllowed : JSVal
  qualityStarts : JSVal
  groundOuts : JSVal
  airOuts : JSVal
deriving DecidableEq, Repr

/-- Result of `formatPitcherData`: the `{available:false}` marker, or the
pitcher info with season stats only when present in the raw blob. -/
inductive PitcherData where
  | unavailable
  | available (name : String) (id : ℤ) (throwsHand : String)
      (stats : Option PitcherSeasonStats)
deriving DecidableEq, Repr

def mkPitcherSeasonStats (b : StatBlob) : PitcherSeasonStats :=
  { wins := jsOr b.wins (.num 0)
    losses := jsOr b.losses (.num 0)
    era := jsOr b.era (.str "0.00")
    whip := jsOr b.whip (.str "0.00")
    strikeOuts := jsOr b.strikeOuts (.num 0)
    walks := jsOr b.baseOnBalls (.num 0)
    inningsPitched := jsOr b.inningsPitched (.str "0.0")
    homeRunsAllowed := jsOr b.homeRuns (.num 0)
    qualityStarts := jsOr b.qualityStarts (.num 0)
    groundOuts := jsOr b.groundOuts (.num 0)
    airOuts := jsOr b.airOuts (.num 0) }

/-- `DataFormatter.formatPitcherData` (`data-formatter.js:300-328`).  The
stats branch repeats the unguarded `stats.stats[0].splits[0].stat` access,
so a present-but-splitless stats blob raises a `TypeError` here too. -/
def formatPitcherData (pitcher : Option Pitcher) (stats : Option TeamStatsRaw) :
    Except String PitcherData :=
  match pitcher with
  | none => .ok .unavailable
  | some p => do
    let seasonStats : Option StatBlob ←
      match stats with
      | none => pure none
      | some s =>
        match s.stats with
        | some (e :: _) =>
          (match e.splits with
           | some (sp :: _) => pure (some sp.stat)
           | some [] => .error "TypeError: Cannot read properties of undefined (reading 'stat')"
           | none => .error "TypeError: Cannot read properties of undefined (reading '0')")
        | _ => pure none
    return .available p.fullName p.id
      (strOr p.pitchHandDescription "Unknown")
      (seasonStats.map mkPitcherSeasonStats)

/-- The optional-chaining access `stats?.stats?.[0]?.splits?.[0]?.stat`
used by `comparePitchers`. -/
def statOfTSR : Option TeamStatsRaw → Option StatBlob
  | none => none
  | some t =>
    match t.stats with
    | none => none
    | some [] => none
    | some (e :: _) =>
      match e.splits with
      | none => none
      | some [] => none
      | some (sp :: _) => some sp.stat

/-- `wins / (wins + losses)` with JavaScript arithmetic on raw stat
fields: a missing operand gives `NaN`, and `0/0` gives `NaN`.  (Stat
counts are non-negative, so the `x/0` infinity case cannot arise.) -/
def recordFrac (b : StatBlob) : JSVal :=
  match b.wins.getD .undef, b.losses.getD .undef with
  | .num w, .num l => if w + l = 0 then .nan else .num (w / (w + l))
  | _, _ => .nan

inductive PitcherComparison where
  | unavailable
  | available (eraAdvantage whipAdvantage strikeoutAdvantage recordAdvantage : String)
deriving DecidableEq, Repr

/-- `DataFormatter.comparePitchers` (`data-formatter.js:331-353`). -/
def comparePitchers (giantsStats opponentStats : Option TeamStatsRaw) : PitcherComparison :=
  match giantsStats, opponentStats with
  | none, _ => .unavailable
  | _, none => .unavailable
  | some g', some o' =>
    match statOfTSR (some g'), statOfTSR (some o') with
    | some giants, some opponent =>
      .available
        (calculateAdvantage (jsParseFloat (opponent.era.getD .undef))
          (jsParseFloat (giants.era.getD .undef)))
        (calculateAdvantage (jsParseFloat (opponent.whip.getD .undef))
          (jsParseFloat (giants.whip.getD .undef)))
        (calculateAdvantage (giants.strikeOuts.getD .undef) (opponent.strikeOuts.getD .undef))
        (calculateAdvantage (recordFrac giants) (recordFrac opponent))
    | _, _ => .unavailable

inductive PitchingMatchup where
  | unavailable
  | available (giants opponent : PitcherData) (comparison : PitcherComparison)
deriving DecidableEq, Repr

/-- `DataFormatter.formatPitchingMatchup` (`data-formatter.js:281-297`). -/
def formatPitchingMatchup (probablePitchers : Option ProbablePitchers)
    (homePitcherStats awayPitcherStats : Option TeamStatsRaw) (isHomeGame : Bool) :
    Except String PitchingMatchup :=
  match probablePitchers with
  | none => .ok .unavailable
  | some pp => do
    let giantsPitcher := if isHomeGame then pp.home else pp.away
    let opponentPitcher := if isHomeGame then pp.away else pp.home
    let giantsPitcherStats := if isHomeGame then homePitcherStats else awayPitcherStats
    let opponentPitcherStats := if isHomeGame then awayPitcherStats else homePitcherStats
    let g ← formatPitcherData giantsPitcher giantsPitcherStats
    let o ← formatPitcherData opponentPitcher opponentPitcherStats
    return .available g o (comparePitchers giantsPitcherStats opponentPitcherStats)

/-! ### Weather -/

structure WeatherRaw where
  condition : Option String := none
  temp : Option String := none
  wind : Option String := none
deriving DecidableEq, Repr

structure WeatherFormatted where
  condition : String
  temperature : String
  wind : String
  impact : List String
deriving DecidableEq, Repr

/-- Leftmost match of `/(\d+)\s*mph/i`: the value of the first digit run
followed by optional whitespace and `mph`. -/
def findWindSpeed : List Char → Option ℕ
  | [] => none
  | c :: rest =>
    (if c.isDigit then
      let run := (c :: rest).takeWhile Char.isDigit
      let after := ((c :: rest).dropWhile Char.isDigit).dropWhile isWsChar
      if ("mph".data.isPrefixOf (after.map toLowerChar)) then some (digitsVal run) else none
     else none).orElse (fun _ => findWindSpeed rest)

/-- `DataFormatter.extractWindSpeed` (`data-formatter.js:395-398`). -/
def extractWindSpeed (windString : String) : ℕ :=
  (findWindSpeed windString.data).getD 0

/-- Leftmost match of `/(\d+)/`: the first digit run's value. -/
def findFirstNumber : List Char → Option ℕ
  | [] => none
  | c :: rest =>
    if c.isDigit then some (digitsVal ((c :: rest).takeWhile Char.isDigit))
    else findFirstNumber rest

/-- `DataFormatter.extractTemperature` (`data-formatter.js:401-404`). -/
def extractTemperature (tempString : String) : ℕ :=
  (findFirstNumber tempString.data).getD 70

/-- `DataFormatter.assessWeatherImpact` (`data-formatter.js:368-392`). -/
def assessWeatherImpact (weather : WeatherRaw) : List String :=
  let impacts :=
    (match weather.condition with
     | some c => if isSubstrOf "rain".data (c.data.map toLowerChar) then ["Rain may affect play"] else []
     | none => []) ++
    (match weather.wind with
     | some w => if w ≠ "" ∧ extractWindSpeed w > 15 then ["Strong wind may affect ball flight"] else []
     | none => []) ++
    (match weather.temp with
     | some t =>
       if t = "" then []
       else if extractTemperature t < 50 then ["Cold weather may reduce offensive production"]
       else if extractTemperature t > 85 then ["Hot weather may favor hitters"]
       else []
     | none => [])
  if impacts.isEmpty then ["Minimal weather impact expected"] else impacts

/-- `DataFormatter.formatWeather` (`data-formatter.js:356-365`) on a
present (truthy) weather object. -/
def formatWeather (weather : WeatherRaw) : WeatherFormatted :=
  { condition := strOr weather.condition "Unknown"
    temperature := strOr weather.temp "Unknown"
    wind := strOr weather.wind "Unknown"
    impact := assessWeatherImpact weather }

/-! ### Injuries -/

structure InjuryItem where
  player : String
  position : String
  injury : String
  status : String
deriving DecidableEq, Repr

structure InjuriesRaw where
  injuries : Option (List InjuryItem) := none
deriving DecidableEq, Repr

structure FormattedInjury where
  player : String
  position : String
  injury : String
  status : String
  impact : String
deriving DecidableEq, Repr

inductive TeamInjuries where
  | unavailable (count : ℕ)
  | available (count : ℕ) (keyInjuries : List FormattedInjury)
deriving DecidableEq, Repr

/-- `DataFormatter.assessInjuryImpact` (`data-formatter.js:434-441`). -/
def assessInjuryImpact (injury : InjuryItem) : String :=
  if ["C", "1B", "SS", "CF", "SP", "CL"].contains injury.position then "High impact"
  else "Moderate impact"

/-- `DataFormatter.formatTeamInjuries` (`data-formatter.js:415-431`). -/
def formatTeamInjuries (injuries : Option InjuriesRaw) : TeamInjuries :=
  match injuries with
  | none => .unavailable 0
  | some r =>
    match r.injuries with
    | none => .unavailable 0
    | some [] => .unavailable 0
    | some l =>
      .available l.length
        (l.map fun i => ⟨i.player, i.position, i.injury, i.status, assessInjuryImpact i⟩)

structure InjuriesBlock where
  giants : TeamInjuries
  opponent : TeamInjuries
deriving DecidableEq, Repr

/-- `DataFormatter.formatInjuries` (`data-formatter.js:407-412`). -/
def formatInjuries (giantsInjuries opponentInjuries : Option InjuriesRaw) : InjuriesBlock :=
  ⟨formatTeamInjuries giantsInjuries, formatTeamInjuries opponentInjuries⟩

/-! ### Head-to-head

`data-formatter.js` defines the method `formatHeadToHead` twice (lines
444-472 and lines 516-523).  Under JavaScript class semantics the second
definition silently overrides the first, so the effective method is the
field-projection variant; the first, summary-computing variant is dead
code (kept here for reference as `formatHeadToHeadFirstDef`). -/

structure H2HDate where
  games : List Game
deriving DecidableEq, Repr

/-- The raw object handed to `formatHeadToHead`.  JavaScript objects are
open records: the schedule-shaped head-to-head response carries `dates`,
while the fields read by the second (effective) definition
(`headToHeadGames`, `team1Stats`, `team2Stats`, `season`) are simply
absent on it. -/
structure H2HRaw where
  dates : Option (List H2HDate) := none
  headToHeadGames : Option (List Game) := none
  team1Stats : Option TeamStatsRaw := none
  team2Stats : Option TeamStatsRaw := none
  season : Option String := none
deriving DecidableEq, Repr

/-- Output shape of the effective (second) `formatHeadToHead`. -/
structure HeadToHeadOut where
  games : Option (List Game)
  team1 : Option TeamStatsRaw
  team2 : Option TeamStatsRaw
  season : Option String
deriving DecidableEq, Repr

/-- The effective `formatHeadToHead` (`data-formatter.js:516-523`, the
second definition, which is the one JavaScript dispatches to). -/
def formatHeadToHead (data : H2HRaw) : HeadToHeadOut :=
  ⟨data.headToHeadGames, data.team1Stats, data.team2Stats, data.season⟩

def h2hGiantsScore (g : Game) : Option ℚ :=
  if g.teams.home.team.id = giantsTeamId then g.teams.home.score else g.teams.away.score

def h2hOpponentScore (g : Game) : Option ℚ :=
  if g.teams.home.team.id = giantsTeamId then g.teams.away.score else g.teams.home.score

/-- `DataFormatter.calculateHeadToHeadTrend` (`data-formatter.js:475-495`). -/
def calculateHeadToHeadTrend (games : List Game) : String :=
  if games.length < 3 then "Insufficient data"
  else
    let recent3 := games.take 3
    let giantsWins := (recent3.filter fun g => optGt (h2hGiantsScore g) (h2hOpponentScore g)).length
    if giantsWins ≥ 2 then "Giants favored recently"
    else if giantsWins ≤ 1 then "Opponent favored recently"
    else "Even recent trend"

inductive HeadToHeadSummary where
  | unavailable
  | available (gamesPlayed giantsWins opponentWins : ℕ) (recentTrend : String)
deriving DecidableEq, Repr

/-- The first, overridden definition of `formatHeadToHead`
(`data-formatter.js:444-472`); dead code under JavaScript class
semantics, retained to document the intended behaviour. -/
def formatHeadToHeadFirstDef (headToHead : Option H2HRaw) : HeadToHeadSummary :=
  match headToHead with
  | none => .unavailable
  | some h =>
    match h.dates with
    | none => .unavailable
    | some ds =>
      let games := ds.flatMap (·.games)
      let giantsWins := (games.filter fun g => optGt (h2hGiantsScore g) (h2hOpponentScore g)).length
      let opponentWins := (games.filter fun g => optGt (h2hOpponentScore g) (h2hGiantsScore g)).length
      .available games.length giantsWins opponentWins (calculateHeadToHeadTrend games)

/-! ### `formatGameData` -/

structure FormatOptions where
  includeWeather : Option Bool := none
  includeInjuries : Option Bool := none
  analysisDepth : Option String := none
deriving DecidableEq, Repr

/-- The raw bundle destructured by `formatGameData`
(`data-formatter.js:12-28`). -/
structure RawBundle where
  game : Game
  opponent : Team
  isHomeGame : Bool
  giantsStats : Option TeamStatsRaw := none
  opponentStats : Option TeamStatsRaw := none
  giantsRecentGames : Option (List Game) := none
  opponentRecentGames : Option (List Game) := none
  headToHead : Option H2HRaw := none
  probablePitchers : Option ProbablePitchers := none
  homePitcherStats : Option TeamStatsRaw := none
  awayPitcherStats : Option TeamStatsRaw := none
  weather : Option WeatherRaw := none
  giantsInjuries : Option InjuriesRaw := none
  opponentInjuries : Option InjuriesRaw := none
deriving DecidableEq, Repr

structure AnalysisPayload where
  gameContext : GameContext
  teamStats : TeamStatsBlock
  recentPerformance : RecentBlock
  pitchingMatchup : PitchingMatchup
  weather : Option WeatherFormatted := none
  injuries : Option InjuriesBlock := none
  headToHead : Option HeadToHeadOut := none
deriving DecidableEq, Repr

/-- `DataFormatter.formatGameData` (`data-formatter.js:12-56`).  The only
fallible sub-computations are the two stats-extraction paths; the
optional blocks follow the option flags and raw-data presence checks of
lines 43-53. -/
def formatGameData (rawData : RawBundle) (options : FormatOptions) :
    Except String AnalysisPayload := do
  let gc := formatGameContext rawData.game rawData.opponent rawData.isHomeGame
  let ts ← formatTeamStats rawData.giantsStats rawData.opponentStats
  let rp := formatRecentPerformance rawData.giantsRecentGames rawData.opponentRecentGames
  let pm ← formatPitchingMatchup rawData.probablePitchers rawData.homePitcherStats
    rawData.awayPitcherStats rawData.isHomeGame
  let withWeather : Option WeatherFormatted :=
    if options.includeWeather ≠ some false then rawData.weather.map formatWeather else none
  let withInjuries : Option InjuriesBlock :=
    if options.includeInjuries ≠ some false ∧
        (rawData.giantsInjuries.isSome ∨ rawData.opponentInjuries.isSome) then
      some (formatInjuries rawData.giantsInjuries rawData.opponentInjuries)
    else none
  return { gameContext := gc
           teamStats := ts
           recentPerformance := rp
           pitchingMatchup := pm
           weather := withWeather
           injuries := withInjuries
           headToHead := rawData.headToHead.map formatHeadToHead }

/-! ### Concrete fixtures used by the closed theorems -/

/-- A minimal well-formed team-stats response: one entry, one split, an
empty stat blob (every field defaults). -/
def sampleStatsRaw : TeamStatsRaw :=
  { stats := some [{ splits := some [{ stat := {} }] }] }

def sampleGame : Game :=
  { gamePk := 745123
    gameDate := "2024-07-01"
    venue := ⟨"Oracle Park"⟩
    teams :=
      { home := { team := ⟨137, "San Francisco Giants"⟩ }
        away := { team := ⟨119, "Los Angeles Dodgers"⟩ } } }

/-- A schedule-shaped head-to-head response: it has a `dates` array and
none of the fields the effective `formatHeadToHead` projects. -/
def sampleH2HRaw : H2HRaw :=
  { dates := some [⟨[]⟩] }

/-- A raw bundle for which every mandatory formatting step succeeds and
whose `headToHead` is the schedule-shaped response above. -/
def sampleBundle : RawBundle :=
  { game := sampleGame
    opponent := ⟨119, "Los Angeles Dodgers"⟩
    isHomeGame := true
    giantsStats := some sampleStatsRaw
    opponentStats := some sampleStatsRaw
    headToHead := some sampleH2HRaw }

/-! ## ResponseParser — outcome interpretation and confidence
(`response-parser.js`) -/

/-- `toLowerCase` on a character list. -/
def lowerL (cs : List Char) : List Char :=
  cs.map toLowerChar

/-- `ResponseParser.interpretOutcome` (`response-parser.js:122-135`): the
positive-word substring test runs first; only if no positive word occurs
is the negative-word list consulted. -/
def interpretOutcome (text : List Char) : String :=
  let positiveWords := ["win", "victory", "prevail", "advantage", "favor"]
  let negativeWords := ["lose", "defeat", "struggle", "disadvantage"]
  let lowerText := lowerL text
  if positiveWords.any (fun w => isSubstrOf w.data lowerText) then "Giants favored"
  else if negativeWords.any (fun w => isSubstrOf w.data lowerText) then "Opponent favored"
  else "Even matchup"

/-- The full indicator vocabulary of `assessConfidence`
(`response-parser.js:528-532`); the five middle words belong to neither
the strong nor the weak class. -/
def confidenceIndicators : List String :=
  ["strongly", "clearly", "obviously", "definitely", "certainly",
   "likely", "probably", "should", "expect", "confident",
   "uncertain", "possibly", "might", "could", "maybe"]

def strongIndicators : List String :=
  ["strongly", "clearly", "obviously", "definitely", "certainly"]

def weakIndicators : List String :=
  ["uncertain", "possibly", "might", "could", "maybe"]

/-- `ResponseParser.assessConfidence` (`response-parser.js:527-547`): each
indicator is tested once for substring **presence** in the lowercased
text; the counts compare how many distinct strong vs weak indicators are
present. -/
def assessConfidence (analysis : List Char) : String :=
  let lower := lowerL analysis
  let matched := confidenceIndicators.filter (fun ind => isSubstrOf ind.data lower)
  let strongCount := (matched.filter (fun m => strongIndicators.contains m)).length
  let weakCount := (matched.filter (fun m => weakIndicators.contains m)).length
  if strongCount > weakCount then "high"
  else if weakCount > strongCount then "low"
  else "moderate"

/-- Number of (possibly overlapping) occurrences of `needle` in the
text — the counting the claim attributes to the classifier. -/
def occCount (needle : List Char) : List Char → ℕ
  | [] => 0
  | c :: t => (if needle.isPrefixOf (c :: t) then 1 else 0) + occCount needle t

/-- Total occurrences of a vocabulary in the lowercased text. -/
def vocabOccurrences (vocab : List String) (text : List Char) : ℕ :=
  (vocab.map (fun w => occCount w.data (lowerL text))).sum

/-- The confidence classifier as the claim words it: strong-vocabulary
*occurrences* versus weak-vocabulary occurrences, majority wins, tie is
`"moderate"`.  Stated from the claim for comparison with the source's
`assessConfidence`. -/
def occurrenceConfidence (analysis : List Char) : String :=
  let strongOcc := vocabOccurrences strongIndicators analysis
  let weakOcc := vocabOccurrences weakIndicators analysis
  if strongOcc > weakOcc then "high"
  else if weakOcc > strongOcc then "low"
  else "moderate"

/-- The confidence classifier described by distinct-indicator *presence* —
the behaviour the source actually implements (amended claim). -/
def presenceConfidence (analysis : List Char) : String :=
  let strongCount := (strongIndicators.filter (fun w => isSubstrOf w.data (lowerL analysis))).length
  let weakCount := (weakIndicators.filter (fun w => isSubstrOf w.data (lowerL analysis))).length
  if strongCount > weakCount then "high"
  else if weakCount > strongCount then "low"
  else "moderate"

/-! ## ResponseParser — section extraction (`extractStructuredSections`,
`response-parser.js:41-68`)

Each of the eight section regexes has the shape
`/##\s*HEAD...\n(.*?)(?=##|$)/is` where `HEAD...` is either a literal
heading followed by `\s*\n`, a literal prefix followed by the lazy
`.*?\n`, or (for the weather pattern) `Weather.*?Impact\s*\n`.  The
functions below implement exactly the derived deterministic semantics of
these regexes on `List Char`:

* the whole pattern can only start at a `##` occurrence, the `\s*` before
  the heading is forced (every heading literal starts with a letter);
* `\s*\n` consumes the greedy whitespace run up to its **last** newline
  (standard greedy backtracking);
* the lazy `.*?\n` stops at the **first** newline, and
  `.*?Impact\s*\n` at the first `impact` occurrence that is followed by a
  whitespace run containing a newline;
* the lazy capture `(.*?)(?=##|$)` is the text up to the first `##` or
  the end of input;
* `String.prototype.match` without `g` returns the **leftmost** match.
-/

/-- Case-insensitively strip a (lowercase) literal from the front of the
text; `none` on mismatch. -/
def ciStripLit : List Char → List Char → Option (List Char)
  | [], cs => some cs
  | _ :: _, [] => none
  | l :: lt, c :: ct => if toLowerChar c = l then ciStripLit lt ct else none

/-- `\s*\n` with greedy backtracking: consume the whitespace run up to
its last newline; fail when the run contains no newline. -/
def chompWsNl (cs : List Char) : Option (List Char) :=
  let run := cs.takeWhile isWsChar
  let rest := cs.drop run.length
  if '\n' ∈ run then some ((run.reverse.takeWhile (fun c => c ≠ '\n')).reverse ++ rest)
  else none

/-- Lazy `.*?\n` (with the `s` flag): everything after the first
newline; fail when there is none. -/
def lazyToNl : List Char → Option (List Char)
  | [] => none
  | c :: t => if c = '\n' then some t else lazyToNl t

/-- Lazy `.*?Impact\s*\n`: the first `impact` (case-insensitive) whose
following whitespace run contains a newline. -/
def weatherTail : List Char → Option (List Char)
  | [] => none
  | c :: t =>
    (((ciStripLit "impact".data (c :: t)).bind chompWsNl).orElse fun _ => weatherTail t)

/-- The lazy capture `(.*?)(?=##|$)`: the text up to the first `##` or
the end of input. -/
def takeUntilHH : List Char → List Char
  | [] => []
  | c :: t => if c = '#' ∧ t.head? = some '#' then [] else c :: takeUntilHH t

/-- Try one section pattern at the current position: `##`, forced
whitespace skip, the case-insensitive heading literal, the
pattern-specific rest-of-heading (`tail`), then the lazy capture. -/
def matchSectionAt (lit : List Char) (tail : List Char → Option (List Char))
    (cs : List Char) : Option (List Char) :=
  match cs with
  | c1 :: c2 :: rest =>
    if c1 = '#' ∧ c2 = '#' then
      match ciStripLit lit (rest.dropWhile isWsChar) with
      | some r1 => (tail r1).map takeUntilHH
      | none => none
    else none
  | _ => none

/-- Leftmost match: try the pattern at every position, left to right. -/
def scanFirst (m : List Char → Option (List Char)) : List Char → Option (List Char)
  | [] => m []
  | c :: t =>
    match m (c :: t) with
    | some r => some r
    | none => scanFirst m t

/-- `String.prototype.trim`. -/
def trimL (cs : List Char) : List Char :=
  ((cs.dropWhile isWsChar).reverse.dropWhile isWsChar).reverse

/-- The section map built by `extractStructuredSections`: each field is
the trimmed captured `content` of the corresponding pattern (absent when
the pattern does not match).  The per-section `bullets` and `keyTerms`
are further pure extractions from the same capture and are not modelled
(no claim concerns them). -/
structure Sections where
  gameOverview : Option (List Char) := none
  pitchingMatchup : Option (List Char) := none
  offensiveMatchups : Option (List Char) := none
  teamMomentum : Option (List Char) := none
  strategicFactors : Option (List Char) := none
  keyPlayers : Option (List Char) := none
  weatherVenue : Option (List Char) := none
  prediction : Option (List Char) := none
deriving DecidableEq, Repr

/-- `ResponseParser.extractStructuredSections` (`response-parser.js:41-68`). -/
def extractStructuredSections (analysis : List Char) : Sections :=
  { gameOverview :=
      (scanFirst (matchSectionAt "game overview".data chompWsNl) analysis).map trimL
    pitchingMatchup :=
      (scanFirst (matchSectionAt "pitching matchup analysis".data chompWsNl) analysis).map trimL
    offensiveMatchups :=
      (scanFirst (matchSectionAt "key offensive matchups".data chompWsNl) analysis).map trimL
    teamMomentum :=
      (scanFirst (matchSectionAt "team momentum".data lazyToNl) analysis).map trimL
    strategicFactors :=
      (scanFirst (matchSectionAt "strategic factors".data chompWsNl) analysis).map trimL
    keyPlayers :=
      (scanFirst (matchSectionAt "key players".data lazyToNl) analysis).map trimL
    weatherVenue :=
      (scanFirst (matchSectionAt "weather".data weatherTail) analysis).map trimL
    prediction :=
      (scanFirst (matchSectionAt "prediction".data lazyToNl) analysis).map trimL }

/-- One section of the prompt template's document: `## HEADING\n` followed
by placeholder text and a newline, then the rest of the document. -/
def secBlock (h : String) (p : List Char) (rest : List Char) : List Char :=
  '#' :: '#' :: ' ' :: (h.data ++ '\n' :: (p ++ '\n' :: rest))

/-- Does the case-insensitive comparison of `lit` against the text hit a
definite character mismatch before the text runs out?  (Used to show a
pattern cannot match at a heading, whatever follows the heading.) -/
def ciMismatchWithin : List Char → List Char → Bool
  | _, [] => false
  | [], _ :: _ => false
  | l :: lt, c :: ct => if toLowerChar c = l then ciMismatchWithin lt ct else true

/-- A document made of consecutive heading/placeholder blocks. -/
def docOf : List (String × List Char) → List Char
  | [] => []
  | (h, p) :: bs => secBlock h p (docOf bs)

/-- A document containing the eight template headings in order, each
followed by its placeholder text. -/
def canonicalDoc (p1 p2 p3 p4 p5 p6 p7 p8 : List Char) : List Char :=
  docOf [("Game Overview", p1), ("Pitching Matchup Analysis", p2),
    ("Key Offensive Matchups", p3), ("Team Momentum & Recent Form", p4),
    ("Strategic Factors", p5), ("Key Players to Watch", p6),
    ("Weather/Venue Impact", p7), ("Prediction & Narrative", p8)]

/-! ## McpClient — circuit breaker and retry
(`server/src/services/mcpClient.ts`) -/

structure McpClientConfig where
  maxRetries : ℕ := 3
  retryDelay : ℕ := 1000
  timeout : ℕ := 8000
  circuitBreakerThreshold : ℕ := 5
  circuitBreakerResetTime : ℕ := 60000
deriving DecidableEq, Repr

/-- `'closed' | 'open' | 'half-open'` (`opened` stands for the source's
`'open'`, a reserved word in Lean). -/
inductive CBState where
  | closed
  | opened
  | halfOpen
deriving DecidableEq, Repr

structure CircuitBreaker where
  failures : ℕ
  lastFailureTime : ℕ
  state : CBState
deriving DecidableEq, Repr

/-- The constructor's breaker state (`mcpClient.ts:32-36`). -/
def initialBreaker : CircuitBreaker :=
  ⟨0, 0, .closed⟩

/-- `McpClient.isCircuitOpen` (`mcpClient.ts:183-193`): in the open state,
once the reset window has elapsed the breaker moves to half-open and the
call is admitted; otherwise the call is rejected.  Closed and half-open
states always admit. -/
def isCircuitOpen (cfg : McpClientConfig) (cb : CircuitBreaker) (now : ℕ) :
    Bool × CircuitBreaker :=
  match cb.state with
  | .opened =>
    if now - cb.lastFailureTime > cfg.circuitBreakerResetTime then
      (false, { cb with state := .halfOpen })
    else (true, cb)
  | _ => (false, cb)

/-- `McpClient.recordFailure` (`mcpClient.ts:195-207`). -/
def recordFailure (cfg : McpClientConfig) (cb : CircuitBreaker) (now : ℕ) : CircuitBreaker :=
  let f := cb.failures + 1
  { failures := f
    lastFailureTime := now
    state := if cfg.circuitBreakerThreshold ≤ f then .opened else cb.state }

/-- `McpClient.resetCircuitBreaker` (`mcpClient.ts:209-219`). -/
def resetCircuitBreaker (cb : CircuitBreaker) : CircuitBreaker :=
  { cb with failures := 0, state := .closed }

/-- The retry loop of `executeWithRetry` (`mcpClient.ts:80-106`): `oracle
k` tells whether the `k`-th attempt's network call succeeds.  Returns
(success, number of network attempts made). -/
def retryLoop (oracle : ℕ → Bool) (attempt : ℕ) : ℕ → Bool × ℕ
  | 0 => (false, 0)
  | remaining + 1 =>
    if oracle attempt then (true, 1)
    else
      let r := retryLoop oracle (attempt + 1) remaining
      (r.1, r.2 + 1)

/-- `McpClient.executeWithRetry`: attempts run from 1 to `maxRetries`. -/
def executeWithRetry (cfg : McpClientConfig) (oracle : ℕ → Bool) : Bool × ℕ :=
  retryLoop oracle 1 cfg.maxRetries

inductive PreviewOutcome where
  | ok
  | circuitOpenError
  | commError
deriving DecidableEq, Repr

/-- One `McpClient.getGiantsGamePreview` call (`mcpClient.ts:39-78`) as a
breaker transition: the circuit check, the retried call, and the
`resetCircuitBreaker` / `recordFailure` bookkeeping.  The circuit-open
fast-fail is thrown *inside* the `try`, so it too runs `recordFailure`
(refreshing `lastFailureTime`).  Returns (outcome, new breaker state,
network attempts made). -/
def previewCall (cfg : McpClientConfig) (cb : CircuitBreaker) (now : ℕ)
    (oracle : ℕ → Bool) : PreviewOutcome × CircuitBreaker × ℕ :=
  let checked := isCircuitOpen cfg cb now
  if checked.1 then (.circuitOpenError, recordFailure cfg checked.2 now, 0)
  else
    let r := executeWithRetry cfg oracle
    if r.1 then (.ok, resetCircuitBreaker checked.2, r.2)
    else (.commError, recordFailure cfg checked.2 now, r.2)

/-- Fold a sequence of calls (each with its wall-clock time and network
oracle) through the shared breaker. -/
def runCalls (cfg : McpClientConfig) (cb : CircuitBreaker)
    (steps : List (ℕ × (ℕ → Bool))) : CircuitBreaker :=
  steps.foldl (fun acc s => (previewCall cfg acc s.1 s.2).2.1) cb

/-! ## MLBAPIClient — request cache (`mlb-api.js`) -/

/-- A cache entry: `{ data, timestamp }`. -/
structure MLBCacheEntry (α : Type) where
  data : α
  timestamp : ℕ
deriving DecidableEq, Repr

/-- The client's `Map` keyed by the fully-qualified request URL, as an
association list (only `get`/`set` by key are used). -/
def MLBCache (α : Type) : Type :=
  List (String × MLBCacheEntry α)

def cacheLookup {α : Type} (cache : MLBCache α) (url : String) : Option (MLBCacheEntry α) :=
  (cache.find? (fun p => p.1 = url)).map (·.2)

/-- `this.cache.set(cacheKey, entry)`: the new binding shadows any old
one. -/
def cacheSet {α : Type} (cache : MLBCache α) (url : String) (e : MLBCacheEntry α) :
    MLBCache α :=
  (url, e) :: cache

/-- Outcome of the underlying `fetch` (response body, or a network/HTTP
failure). -/
inductive NetResult (α : Type) where
  | ok (data : α)
  | fail (msg : String)
deriving DecidableEq, Repr

/-- `this.cacheTimeout = 300000` (5 minutes). -/
def mlbCacheTimeout : ℕ := 300000

/-- `MLBAPIClient.makeRequest` (`mlb-api.js:17-69`) for one URL: returns
(result, cache afterwards, number of network calls issued).  A fresh
cache entry short-circuits the network; an absent or expired entry
triggers exactly one fetch, whose success overwrites the entry and whose
failure leaves the cache untouched and propagates as an exception. -/
def makeRequest {α : Type} (cache : MLBCache α) (url : String) (now : ℕ)
    (net : NetResult α) : Except String α × MLBCache α × ℕ :=
  match cacheLookup cache url with
  | some e =>
    if now - e.timestamp < mlbCacheTimeout then (.ok e.data, cache, 0)
    else
      match net with
      | .ok d => (.ok d, cacheSet cache url ⟨d, now⟩, 1)
      | .fail m => (.error m, cache, 1)
  | none =>
    match net with
    | .ok d => (.ok d, cacheSet cache url ⟨d, now⟩, 1)
    | .fail m => (.error m, cache, 1)

/-! ## GiantsIntelligentMCPServer — request orchestrator
(`src/unnamed/part_008`, the MCP server entry point) -/

/-- Outcome of one external fetch as seen by the orchestrator: a resolved
value or a rejected promise. -/
inductive Fetch (α : Type) where
  | ok (val : α)
  | fail (msg : String)
deriving DecidableEq, Repr

def Fetch.toExcept {α : Type} : Fetch α → Except String α
  | .ok v => .ok v
  | .fail m => .error m

structure ScheduleDate where
  games : List Game
deriving DecidableEq, Repr

/-- A schedule response body; its `dates` array may be missing. -/
structure ScheduleResp where
  dates : Option (List ScheduleDate) := none
deriving DecidableEq, Repr

/-- The game-lookup of `fetchComprehensiveGameData` (part_008:411-418):
`schedule.dates[0].games[0]`, with `gameFound:false` when the schedule is
null, the `dates` array is missing or empty, or the first date entry has
no game. -/
def scheduleFirstGame (schedule : Option ScheduleResp) : Option Game :=
  match schedule with
  | none => none
  | some s =>
    match s.dates with
    | none => none
    | some [] => none
    | some (d :: _) => d.games.head?

/-- The external world of one orchestrated request: the outcome of every
fetch the orchestrator can issue, plus the LLM completion. -/
structure OrchestratorEnv where
  schedule : Fetch (Option ScheduleResp)
  giantsStats : Fetch (Option TeamStatsRaw)
  opponentStats : Fetch (Option TeamStatsRaw)
  giantsRecentGames : Fetch (List Game)
  opponentRecentGames : Fetch (List Game)
  headToHead : Fetch (Option H2HRaw)
  giantsRoster : Fetch Unit
  opponentRoster : Fetch Unit
  gameFeedPitchers : Fetch (Option ProbablePitchers)
  homePitcherStats : Fetch (Option TeamStatsRaw)
  awayPitcherStats : Fetch (Option TeamStatsRaw)
  weather : Fetch (Option WeatherRaw)
  giantsInjuries : Fetch (Option InjuriesRaw)
  opponentInjuries : Fetch (Option InjuriesRaw)
  llm : Fetch String

/-- The `data` object assembled by `fetchComprehensiveGameData`. -/
structure CompData where
  gameFound : Bool
  game : Option Game := none
  opponent : Option Team := none
  isHomeGame : Bool := false
  giantsStats : Option TeamStatsRaw := none
  opponentStats : Option TeamStatsRaw := none
  giantsRecentGames : Option (List Game) := none
  opponentRecentGames : Option (List Game) := none
  headToHead : Option H2HRaw := none
  probablePitchers : Option ProbablePitchers := none
  homePitcherStats : Option TeamStatsRaw := none
  awayPitcherStats : Option TeamStatsRaw := none
  weather : Option WeatherRaw := none
  giantsInjuries : Option InjuriesRaw := none
  opponentInjuries : Option InjuriesRaw := none

/-- A probable pitcher's season stats are fetched only when that pitcher
is listed; the fetch's failure propagates (it is not wrapped in a
`try`). -/
def fetchPitcherStats (side : Option Pitcher) (f : Fetch (Option TeamStatsRaw)) :
    Except String (Option TeamStatsRaw) :=
  match side with
  | some _ => f.toExcept
  | none => .ok none

def ppHome (pp : Option ProbablePitchers) : Option Pitcher :=
  pp.bind (·.home)

def ppAway (pp : Option ProbablePitchers) : Option Pitcher :=
  pp.bind (·.away)

/-- `fetchComprehensiveGameData` (part_008:404-502).  The mandatory
`Promise.all` fan-out is modelled sequentially (a rejection of any member
propagates; only which message surfaces depends on timing).  The weather
fetch has its own `try`, so its failure leaves `weather` unset; the two
injury fetches share one `try`, so a failure of the first leaves both
unset and a failure of the second leaves only the second unset.  The
game-feed and pitcher-stats fetches are not wrapped and propagate. -/
def fetchComprehensiveGameData (env : OrchestratorEnv) : Except String CompData := do
  let sched ← env.schedule.toExcept
  match scheduleFirstGame sched with
  | none => return { gameFound := false }
  | some game =>
    let opponent :=
      if game.teams.home.team.id = giantsTeamId then game.teams.away.team
      else game.teams.home.team
    let isHomeGame := decide (game.teams.home.team.id = giantsTeamId)
    let gs ← env.giantsStats.toExcept
    let os ← env.opponentStats.toExcept
    let grg ← env.giantsRecentGames.toExcept
    let org ← env.opponentRecentGames.toExcept
    let h2h ← env.headToHead.toExcept
    let _ ← env.giantsRoster.toExcept
    let _ ← env.opponentRoster.toExcept
    let pp ← env.gameFeedPitchers.toExcept
    let hps ← fetchPitcherStats (ppHome pp) env.homePitcherStats
    let aps ← fetchPitcherStats (ppAway pp) env.awayPitcherStats
    let w : Option WeatherRaw :=
      match env.weather with
      | .ok v => v
      | .fail _ => none
    let inj : Option InjuriesRaw × Option InjuriesRaw :=
      match env.giantsInjuries with
      | .fail _ => (none, none)
      | .ok g =>
        match env.opponentInjuries with
        | .fail _ => (g, none)
        | .ok o => (g, o)
    return { gameFound := true
             game := some game
             opponent := some opponent
             isHomeGame := isHomeGame
             giantsStats := gs
             opponentStats := os
             giantsRecentGames := some grg
             opponentRecentGames := some org
             headToHead := h2h
             probablePitchers := pp
             homePitcherStats := hps
             awayPitcherStats := aps
             weather := w
             giantsInjuries := inj.1
             opponentInjuries := inj.2 }

/-- The success/failure envelope returned by `getGiantsGamePreview`.  The
`analysis` field carries the raw LLM text (`rawAnalysis`); the rest of
the parsed structure is a pure function of it (modelled in the parser
sections) and is not duplicated here. -/
structure PreviewResult where
  success : Bool
  error : Option String := none
  date : String
  game : Option Game := none
  analysis : Option String := none
  fromCache : Bool := false

/-- The per-request inputs of `getGiantsGamePreview`: the requested date,
the options, the wall clock, the caching configuration and the cache
entry (if any) stored under this request's key. -/
structure PreviewRequest where
  gameDate : String
  options : FormatOptions := {}
  now : ℕ := 0
  enableCaching : Bool := true
  cacheTimeout : ℕ := 1800000
  cached : Option (PreviewResult × ℕ) := none

/-- The raw bundle handed to `formatGameData` on the success path. -/
def bundleOf (d : CompData) (game : Game) (opponent : Team) : RawBundle :=
  { game := game
    opponent := opponent
    isHomeGame := d.isHomeGame
    giantsStats := d.giantsStats
    opponentStats := d.opponentStats
    giantsRecentGames := d.giantsRecentGames
    opponentRecentGames := d.opponentRecentGames
    headToHead := d.headToHead
    probablePitchers := d.probablePitchers
    homePitcherStats := d.homePitcherStats
    awayPitcherStats := d.awayPitcherStats
    weather := d.weather
    giantsInjuries := d.giantsInjuries
    opponentInjuries := d.opponentInjuries }

/-- The try-block of `getGiantsGamePreview` (part_008:350-400), after a
cache miss: fetch, the no-game envelope, format, LLM call, parse, and the
catch that maps any thrown error to the typed failure envelope.  Returns
(result, number of LLM completion calls made). -/
def previewMainFlow (env : OrchestratorEnv) (req : PreviewRequest) : PreviewResult × ℕ :=
  match fetchComprehensiveGameData env with
  | .error m => ({ success := false, error := some m, date := req.gameDate }, 0)
  | .ok d =>
    if d.gameFound = false then
      ({ success := false, error := some "No Giants game found for the specified date",
         date := req.gameDate }, 0)
    else
      match d.game, d.opponent with
      | some game, some opponent =>
        match formatGameData (bundleOf d game opponent) req.options with
        | .error m => ({ success := false, error := some m, date := req.gameDate }, 0)
        | .ok _ =>
          match env.llm with
          | .fail m => ({ success := false, error := some m, date := req.gameDate }, 1)
          | .ok text =>
            ({ success := true, date := req.gameDate, game := some game,
               analysis := some text }, 1)
      | _, _ =>
        -- unreachable when gameFound: the fields are set together
        ({ success := false, error := some "TypeError", date := req.gameDate }, 0)

/-- `getGiantsGamePreview` (part_008:335-401): the result-cache check
(`enableCaching`, 30-minute TTL, `fromCache:true` tag) in front of the
main flow. -/
def getGiantsGamePreview (env : OrchestratorEnv) (req : PreviewRequest) :
    PreviewResult × ℕ :=
  match req.enableCaching, req.cached with
  | true, some (r, ts) =>
    if req.now - ts < req.cacheTimeout then ({ r with fromCache := true }, 0)
    else previewMainFlow env req
  | _, _ => previewMainFlow env req

/-- An environment in which every mandatory fetch resolves; the
best-effort fetches and the LLM outcome stay parameters. -/
def mkEnv (sched : Option ScheduleResp) (gs os : Option TeamStatsRaw)
    (grg org : List Game) (h2h : Option H2HRaw) (pp : Option ProbablePitchers)
    (hps aps : Option TeamStatsRaw) (weather : Fetch (Option WeatherRaw))
    (gi oi : Fetch (Option InjuriesRaw)) (llm : Fetch String) : OrchestratorEnv :=
  { schedule := .ok sched
    giantsStats := .ok gs
    opponentStats := .ok os
    giantsRecentGames := .ok grg
    opponentRecentGames := .ok org
    headToHead := .ok h2h
    giantsRoster := .ok ()
    opponentRoster := .ok ()
    gameFeedPitchers := .ok pp
    homePitcherStats := .ok hps
    awayPitcherStats := .ok aps
    weather := weather
    giantsInjuries := gi
    opponentInjuries := oi
    llm := llm }

/-- A schedule response carrying one concrete game. -/
def schedWith (game : Game) : Option ScheduleResp :=
  some { dates := some [{ games := [game] }] }

end SportsBuddy

namespace SportsBuddy

theorem evenBand_avg_pos {a b : ℚ} (h : evenBand a b) : 0 < (a + b) / 2 := by
  unfold evenBand at h
  by_contra hle
  push_neg at hle
  have : 5 / 100 * ((a + b) / 2) ≤ 0 := by
    apply mul_nonpos_of_nonneg_of_nonpos <;> [norm_num; exact hle]
  exact absurd (lt_of_lt_of_le h this) (not_lt.mpr (abs_nonneg _))

theorem calculateAdvantage_num_even {a b : ℚ} (h : evenBand a b) :
    calculateAdvantage (.num a) (.num b) = "Even" := by
  have havg : 0 < (a + b) / 2 := evenBand_avg_pos h
  unfold evenBand at h
  have hlt : |a - b| / ((a + b) / 2) * 100 < 5 := by
    rw [div_mul_eq_mul_div, div_lt_iff₀ havg]
    nlinarith [h, havg]
  simp only [calculateAdvantage]
  rw [if_pos ⟨ne_of_gt havg, hlt⟩]

theorem calculateAdvantage_num_compare {a b : ℚ} (havg : 0 < (a + b) / 2)
    (h : ¬ evenBand a b) :
    calculateAdvantage (.num a) (.num b) = if a > b then "Giants" else "Opponent" := by
  unfold evenBand at h
  push_neg at h
  have hge : ¬ (|a - b| / ((a + b) / 2) * 100 < 5) := by
    rw [div_mul_eq_mul_div, not_lt, le_div_iff₀ havg]
    nlinarith [h, havg]
  simp only [calculateAdvantage]
  rw [if_neg (by rintro ⟨-, hc⟩; exact hge hc)]

/-- C6 counterexample: the pair `(0,0)` lies outside the claimed "Even"
band (`0 < 5% of 0` is false), yet `calculateAdvantage(0,0)` returns
`"Opponent"` for both argument orders (the average is zero, `percentDiff`
is `NaN`, and `0 > 0` is false) — swapping the arguments does not flip the
winning side to `"Giants"`. -/
theorem c6_counterexample :
    ¬ evenBand 0 0 ∧ calculateAdvantage (.num 0) (.num 0) = "Opponent" ∧
      calculateAdvantage (.num 0) (.num 0) ≠ "Giants" := by
  refine ⟨by norm_num [evenBand], ?_, ?_⟩ <;> simp [calculateAdvantage]

/-- C6 (amended): for numeric pairs whose absolute difference is under 5%
of their average, `calculateAdvantage` returns `"Even"`; for pairs with
**positive average** outside that band, swapping the two arguments flips
the winning side between `"Giants"` and `"Opponent"`.  (The positivity
hypothesis is forced by the counterexample: with a non-positive average
the code can return `"Even"` or `"Opponent"` for both orders.) -/
theorem c6_advantage_rule :
    (∀ a b : ℚ, evenBand a b → calculateAdvantage (.num a) (.num b) = "Even") ∧
    (∀ a b : ℚ, 0 < (a + b) / 2 → ¬ evenBand a b →
      (calculateAdvantage (.num a) (.num b) = "Giants" ↔
        calculateAdvantage (.num b) (.num a) = "Opponent")) := by
  constructor
  · exact fun a b h => calculateAdvantage_num_even h
  · intro a b havg hnb
    have havg' : 0 < (b + a) / 2 := by linarith
    have hnb' : ¬ evenBand b a := by
      unfold evenBand at hnb ⊢
      rw [abs_sub_comm, add_comm b a]; exact hnb
    have hne : a ≠ b := by
      intro he
      apply hnb
      unfold evenBand
      rw [he, sub_self, abs_zero]
      have hb := he ▸ havg
      linarith
    rw [calculateAdvantage_num_compare havg hnb,
      calculateAdvantage_num_compare havg' hnb']
    rcases lt_or_gt_of_ne hne with hab | hab
    · rw [if_neg (by exact not_lt.mpr hab.le), if_pos hab]
      constructor <;> intro h <;> simp_all
    · rw [if_pos hab, if_neg (by exact not_lt.mpr hab.le)]
      simp

/-- Witness for C6: both parts of the amended rule hold at concrete
inputs — `(100, 101)` is inside the band and yields `"Even"`; `(1, 2)` has
positive average, lies outside the band, and swapping flips the winner. -/
theorem c6_witness :
    calculateAdvantage (.num 100) (.num 101) = "Even" ∧
      (calculateAdvantage (.num 1) (.num 2) = "Giants" ↔
        calculateAdvantage (.num 2) (.num 1) = "Opponent") :=
  ⟨c6_advantage_rule.1 100 101 (by norm_num [evenBand]),
   c6_advantage_rule.2 1 2 (by norm_num) (by norm_num [evenBand])⟩

/-- C1: `extractKeyTeamStats` returns the `{available:false}` marker when
the raw input is missing or when its `stats` array is missing or empty —
but an input whose first stats entry has an **empty `splits` array**
raises a `TypeError` (`teamStats.stats[0].splits[0].stat` reads a property
of `undefined`) instead of degrading, contradicting the claimed
degradation invariant. -/
theorem c1_code_bug :
    extractKeyTeamStats none = .ok .unavailable ∧
    extractKeyTeamStats (some ⟨none⟩) = .ok .unavailable ∧
    extractKeyTeamStats (some ⟨some []⟩) = .ok .unavailable ∧
    extractKeyTeamStats (some ⟨some [⟨some []⟩]⟩) =
      .error "TypeError: Cannot read properties of undefined (reading 'stat')" :=
  ⟨rfl, rfl, rfl, rfl⟩

/-- C2: on a bundle whose mandatory parts are well formed and whose raw
`headToHead` is the schedule-shaped response, `formatGameData` succeeds
but its `headToHead` sub-field is the all-`undefined` projection object
`{games: undefined, team1: undefined, team2: undefined, season:
undefined}` — it carries no `available:false` marker and every nested
value is undefined, because the second definition of `formatHeadToHead`
silently overrides the first. -/
theorem c2_code_bug :
    (formatGameData sampleBundle {}).toOption.map (·.headToHead) =
      some (some ⟨none, none, none, none⟩) := rfl

theorem isSubstrOf_iff (n h : List Char) : isSubstrOf n h = true ↔ n <:+: h := by
  induction h with
  | nil =>
    simp only [isSubstrOf, List.isEmpty_iff, List.infix_nil]
  | cons c t ih =>
    simp only [isSubstrOf, Bool.or_eq_true, List.isPrefixOf_iff_prefix, ih,
      List.infix_cons_iff]

theorem filter_pick (p : String → Bool) (sub : List String)
    (h : confidenceIndicators.filter (fun m => sub.contains m) = sub) :
    (confidenceIndicators.filter p).filter (fun m => sub.contains m) = sub.filter p :=
  calc (confidenceIndicators.filter p).filter (fun m => sub.contains m)
      = confidenceIndicators.filter (fun a => sub.contains a && p a) :=
        List.filter_filter ..
    _ = confidenceIndicators.filter (fun a => p a && sub.contains a) :=
        List.filter_congr (fun a _ => by rw [Bool.and_comm])
    _ = (confidenceIndicators.filter (fun m => sub.contains m)).filter p :=
        (List.filter_filter ..).symm
    _ = sub.filter p := by rw [h]

/-- C7 counterexample: in `"strongly strongly uncertain possibly"` the
strong vocabulary has 2 occurrences and the weak vocabulary has 2
occurrences, so the claimed occurrence-majority rule gives a tie
(`"moderate"`), but `assessConfidence` counts distinct indicators present
(1 strong vs 2 weak) and returns `"low"`. -/
theorem c7_counterexample :
    vocabOccurrences strongIndicators "strongly strongly uncertain possibly".data = 2 ∧
    vocabOccurrences weakIndicators "strongly strongly uncertain possibly".data = 2 ∧
    occurrenceConfidence "strongly strongly uncertain possibly".data = "moderate" ∧
    assessConfidence "strongly strongly uncertain possibly".data = "low" := by
  refine ⟨?_, ?_, ?_, ?_⟩ <;> decide

/-- C7 (amended): `assessConfidence` classifies by the number of
*distinct* strong-certainty indicators whose text is present in the
lowercased analysis versus distinct weak-certainty indicators present:
more strong indicators present gives `"high"`, more weak gives `"low"`,
and a tie (including no indicator at all) gives `"moderate"`. -/
theorem c7_confidence_rule (text : List Char) :
    assessConfidence text = presenceConfidence text := by
  simp only [assessConfidence, presenceConfidence]
  rw [filter_pick _ strongIndicators (by decide), filter_pick _ weakIndicators (by decide)]

/-- C10: any text whose lowercase form contains `"disadvantage"` also
contains `"advantage"` as a substring, and `interpretOutcome` tests the
positive vocabulary first, so the result is `"Giants favored"` — the
`"Opponent favored"` branch is unreachable for such texts. -/
theorem c10_disadvantage_self_favored (text : List Char)
    (h : "disadvantage".data <:+: lowerL text) :
    interpretOutcome text = "Giants favored" := by
  have hadv : "advantage".data <:+: lowerL text :=
    List.IsInfix.trans (by decide) h
  have hsub : isSubstrOf "advantage".data (lowerL text) = true :=
    (isSubstrOf_iff _ _).mpr hadv
  simp only [interpretOutcome]
  rw [if_pos]
  rw [List.any_eq_true]
  exact ⟨"advantage", by decide, hsub⟩

/-- Witness for C10 at a concrete sentence asserting a disadvantage for
the self team. -/
theorem c10_witness :
    "disadvantage".data <:+: lowerL "The Giants face a clear disadvantage today".data ∧
      interpretOutcome "The Giants face a clear disadvantage today".data = "Giants favored" :=
  ⟨by decide, c10_disadvantage_self_favored _ (by decide)⟩


theorem retryLoop_allFalse {oracle : ℕ → Bool} (ho : ∀ j, oracle j = false) :
    ∀ att rem, (retryLoop oracle att rem).1 = false := by
  intro att rem
  induction rem generalizing att with
  | zero => rfl
  | succ n ih => simp [retryLoop, ho, ih]

theorem retryLoop_attempts_pos (oracle : ℕ → Bool) (att rem : ℕ) :
    1 ≤ (retryLoop oracle att (rem + 1)).2 := by
  simp only [retryLoop]
  split <;> simp

theorem executeWithRetry_attempts_pos (cfg : McpClientConfig) (oracle : ℕ → Bool)
    (h : 1 ≤ cfg.maxRetries) : 1 ≤ (executeWithRetry cfg oracle).2 := by
  obtain ⟨m, hm⟩ := Nat.exists_eq_add_of_le h
  rw [executeWithRetry, hm, Nat.add_comm]
  exact retryLoop_attempts_pos oracle 1 m

theorem isCircuitOpen_opened_within {cfg : McpClientConfig} {cb : CircuitBreaker} {now : ℕ}
    (hst : cb.state = .opened) (hwin : now - cb.lastFailureTime ≤ cfg.circuitBreakerResetTime) :
    isCircuitOpen cfg cb now = (true, cb) := by
  simp only [isCircuitOpen, hst]
  rw [if_neg (by omega)]

theorem isCircuitOpen_opened_elapsed {cfg : McpClientConfig} {cb : CircuitBreaker} {now : ℕ}
    (hst : cb.state = .opened) (hwin : cfg.circuitBreakerResetTime < now - cb.lastFailureTime) :
    isCircuitOpen cfg cb now = (false, { cb with state := .halfOpen }) := by
  simp only [isCircuitOpen, hst]
  rw [if_pos (by omega)]

theorem failing_step {cfg : McpClientConfig}
    {cb : CircuitBreaker} {k : ℕ} (now : ℕ) {oracle : ℕ → Bool}
    (ho : ∀ j, oracle j = false) (h1 : cb.failures = k)
    (h2 : cb.state = if cfg.circuitBreakerThreshold ≤ k then CBState.opened else .closed) :
    ((previewCall cfg cb now oracle).2.1).failures = k + 1 ∧
      ((previewCall cfg cb now oracle).2.1).state =
        (if cfg.circuitBreakerThreshold ≤ k + 1 then CBState.opened else .closed) := by
  have hfail : (executeWithRetry cfg oracle).1 = false := retryLoop_allFalse ho _ _
  by_cases hk : cfg.circuitBreakerThreshold ≤ k
  · rw [if_pos hk] at h2
    have hk1 : cfg.circuitBreakerThreshold ≤ k + 1 := hk.trans (Nat.le_succ k)
    by_cases hel : cfg.circuitBreakerResetTime < now - cb.lastFailureTime
    · rw [if_pos hk1]
      simp [previewCall, isCircuitOpen_opened_elapsed h2 hel, hfail, recordFailure, h1, hk1]
    · have hwin : now - cb.lastFailureTime ≤ cfg.circuitBreakerResetTime := by omega
      rw [if_pos hk1]
      simp [previewCall, isCircuitOpen_opened_within h2 hwin, recordFailure, h1, hk1]
  · rw [if_neg hk] at h2
    have hadm : isCircuitOpen cfg cb now = (false, cb) := by
      simp [isCircuitOpen, h2]
    simp [previewCall, hadm, hfail, recordFailure, h1, h2]

theorem runCalls_failing {cfg : McpClientConfig}
    (steps : List (ℕ × (ℕ → Bool))) (hsteps : ∀ s ∈ steps, ∀ j, s.2 j = false) :
    ∀ (cb : CircuitBreaker) (k : ℕ), cb.failures = k →
      cb.state = (if cfg.circuitBreakerThreshold ≤ k then CBState.opened else .closed) →
      (runCalls cfg cb steps).failures = k + steps.length ∧
        (runCalls cfg cb steps).state =
          (if cfg.circuitBreakerThreshold ≤ k + steps.length then CBState.opened else .closed) := by
  induction steps with
  | nil => intro cb k h1 h2; simpa [runCalls] using ⟨h1, h2⟩
  | cons s rest ih =>
    intro cb k h1 h2
    have hs := hsteps s (List.mem_cons_self s rest)
    have hstep := failing_step s.1 hs h1 h2
    have hrest := ih (fun t ht => hsteps t (List.mem_cons_of_mem s ht))
      ((previewCall cfg cb s.1 s.2).2.1) (k + 1) hstep.1 hstep.2
    have hlen : k + 1 + rest.length = k + (s :: rest).length := by
      rw [List.length_cons]; omega
    rw [hlen] at hrest
    simp only [runCalls, List.foldl_cons] at hrest ⊢
    exact hrest

/-- C4: the circuit breaker starts closed with a zero failure count; under
consecutive failing calls it is open exactly once the failure count has
reached the configured threshold; while open and within the reset window
a call fails fast with zero network attempts; once the window elapses the
breaker turns half-open and the call is admitted (at least one network
attempt); an admitted successful call resets the counter to zero and
closes the breaker; and a failing call in the half-open state returns the
breaker to open. -/
theorem c4_circuit_breaker :
    (initialBreaker.state = .closed ∧ initialBreaker.failures = 0) ∧
    (∀ cfg : McpClientConfig, 1 ≤ cfg.circuitBreakerThreshold →
      ∀ steps : List (ℕ × (ℕ → Bool)), (∀ s ∈ steps, ∀ j, s.2 j = false) →
        (runCalls cfg initialBreaker steps).failures = steps.length ∧
          ((runCalls cfg initialBreaker steps).state = .opened ↔
            cfg.circuitBreakerThreshold ≤ steps.length)) ∧
    (∀ (cfg : McpClientConfig) (cb : CircuitBreaker) (now : ℕ) (oracle : ℕ → Bool),
      cb.state = .opened → now - cb.lastFailureTime ≤ cfg.circuitBreakerResetTime →
        previewCall cfg cb now oracle = (.circuitOpenError, recordFailure cfg cb now, 0)) ∧
    (∀ (cfg : McpClientConfig) (cb : CircuitBreaker) (now : ℕ),
      cb.state = .opened → cfg.circuitBreakerResetTime < now - cb.lastFailureTime →
        (isCircuitOpen cfg cb now).1 = false ∧
          (isCircuitOpen cfg cb now).2.state = .halfOpen ∧
          ∀ oracle : ℕ → Bool, 1 ≤ cfg.maxRetries →
            1 ≤ (previewCall cfg cb now oracle).2.2) ∧
    (∀ (cfg : McpClientConfig) (cb : CircuitBreaker) (now : ℕ) (oracle : ℕ → Bool),
      (isCircuitOpen cfg cb now).1 = false → (executeWithRetry cfg oracle).1 = true →
        (previewCall cfg cb now oracle).1 = .ok ∧
          (previewCall cfg cb now oracle).2.1.failures = 0 ∧
          (previewCall cfg cb now oracle).2.1.state = .closed) ∧
    (∀ (cfg : McpClientConfig) (cb : CircuitBreaker) (now : ℕ) (oracle : ℕ → Bool),
      cb.state = .halfOpen → cfg.circuitBreakerThreshold ≤ cb.failures + 1 →
        (∀ j, oracle j = false) →
        (previewCall cfg cb now oracle).1 = .commError ∧
          (previewCall cfg cb now oracle).2.1.state = .opened) := by
  refine ⟨⟨rfl, rfl⟩, ?_, ?_, ?_, ?_, ?_⟩
  · intro cfg hthr steps hsteps
    have h := @runCalls_failing cfg steps hsteps initialBreaker 0 rfl
      (by rw [if_neg (by omega)]; rfl)
    refine ⟨by simpa using h.1, ?_⟩
    rw [h.2]
    by_cases hl : cfg.circuitBreakerThreshold ≤ 0 + steps.length
    · rw [if_pos hl]
      simp only [true_iff]
      omega
    · rw [if_neg hl]
      constructor
      · intro hco; exact absurd hco (by simp)
      · intro hle; exact absurd hle (by omega)
  · intro cfg cb now oracle hst hwin
    simp [previewCall, isCircuitOpen_opened_within hst hwin]
  · intro cfg cb now hst hwin
    have hopen := isCircuitOpen_opened_elapsed hst hwin
    refine ⟨by rw [hopen], by rw [hopen], ?_⟩
    intro oracle hmr
    have hpos := executeWithRetry_attempts_pos cfg oracle hmr
    have hproj : (previewCall cfg cb now oracle).2.2 = (executeWithRetry cfg oracle).2 := by
      simp only [previewCall, hopen, Bool.false_eq_true, if_false]
      split <;> rfl
    rw [hproj]
    exact hpos
  · intro cfg cb now oracle hadm hsucc
    simp [previewCall, hadm, hsucc, resetCircuitBreaker]
  · intro cfg cb now oracle hst hthr ho
    have hadm : isCircuitOpen cfg cb now = (false, cb) := by
      simp [isCircuitOpen, hst]
    have hfail : (executeWithRetry cfg oracle).1 = false := retryLoop_allFalse ho _ _
    simp [previewCall, hadm, hfail, recordFailure, if_pos hthr]

/-- Witness for C4: the concrete default configuration, five consecutive
failures opening the breaker, a fast-fail inside the window, the
half-open transition after the window, a closing success, and a
half-open failure returning to open. -/
theorem c4_witness :
    (runCalls {} initialBreaker (List.replicate 5 ((0 : ℕ), (fun _ : ℕ => false)))).failures = 5 ∧
    (runCalls {} initialBreaker (List.replicate 5 ((0 : ℕ), (fun _ : ℕ => false)))).state = .opened ∧
    previewCall {} ⟨5, 100, .opened⟩ 200 (fun _ => true) =
      (.circuitOpenError, recordFailure {} ⟨5, 100, .opened⟩ 200, 0) ∧
    (isCircuitOpen {} ⟨5, 0, .opened⟩ 60001).2.state = .halfOpen ∧
    1 ≤ (previewCall {} ⟨5, 0, .opened⟩ 60001 (fun _ => false)).2.2 ∧
    (previewCall {} initialBreaker 0 (fun _ => true)).2.1.state = .closed ∧
    (previewCall {} ⟨5, 0, .halfOpen⟩ 7 (fun _ => false)).2.1.state = .opened := by
  have hsteps : ∀ s ∈ List.replicate 5 ((0 : ℕ), (fun _ : ℕ => false)), ∀ j, s.2 j = false := by
    intro s hs j
    rw [List.eq_of_mem_replicate hs]
  have h2 := c4_circuit_breaker.2.1 {} (by norm_num) _ hsteps
  have h3 := c4_circuit_breaker.2.2.1 {} ⟨5, 100, .opened⟩ 200 (fun _ => true) rfl (by norm_num)
  have h4 := c4_circuit_breaker.2.2.2.1 {} ⟨5, 0, .opened⟩ 60001 rfl (by norm_num)
  have h5 := c4_circuit_breaker.2.2.2.2.1 {} initialBreaker 0 (fun _ => true) rfl rfl
  have h6 := c4_circuit_breaker.2.2.2.2.2 {} ⟨5, 0, .halfOpen⟩ 7 (fun _ => false) rfl
    (by norm_num) (fun j => rfl)
  exact ⟨by simpa using h2.1, h2.2.mpr (by simp), h3, h4.2.1,
    h4.2.2 (fun _ => false) (by norm_num), h5.2.2, h6.2⟩


theorem cacheLookup_set_self {α : Type} (cache : MLBCache α) (url : String)
    (e : MLBCacheEntry α) : cacheLookup (cacheSet cache url e) url = some e := by
  simp [cacheLookup, cacheSet, List.find?]

/-- C9: a fresh cache entry is served without any network call and leaves
the cache unchanged (so every repeat within the TTL window behaves the
same); a missing or expired entry triggers exactly one network call whose
successful result overwrites the entry with the new data and timestamp. -/
theorem c9_cache_ttl {α : Type} :
    (∀ (cache : MLBCache α) (url : String) (t0 : ℕ) (d0 : α),
      cacheLookup cache url = none →
        makeRequest cache url t0 (.ok d0) = (.ok d0, cacheSet cache url ⟨d0, t0⟩, 1) ∧
          cacheLookup (cacheSet cache url ⟨d0, t0⟩) url = some ⟨d0, t0⟩) ∧
    (∀ (cache : MLBCache α) (url : String) (t0 now : ℕ) (d0 : α) (net : NetResult α),
      cacheLookup cache url = some ⟨d0, t0⟩ → now - t0 < mlbCacheTimeout →
        makeRequest cache url now net = (.ok d0, cache, 0)) ∧
    (∀ (cache : MLBCache α) (url : String) (t0 now : ℕ) (d0 d1 : α),
      cacheLookup cache url = some ⟨d0, t0⟩ → mlbCacheTimeout < now - t0 →
        makeRequest cache url now (.ok d1) = (.ok d1, cacheSet cache url ⟨d1, now⟩, 1) ∧
          cacheLookup (cacheSet cache url ⟨d1, now⟩) url = some ⟨d1, now⟩) := by
  refine ⟨?_, ?_, ?_⟩
  · intro cache url t0 d0 h
    exact ⟨by simp [makeRequest, h], cacheLookup_set_self cache url _⟩
  · intro cache url t0 now d0 net h httl
    simp [makeRequest, h, httl]
  · intro cache url t0 now d0 d1 h httl
    refine ⟨?_, cacheLookup_set_self cache url _⟩
    simp only [makeRequest, h]
    rw [if_neg (by omega)]

/-- Witness for C9: populate an empty cache at time 0, hit it at
299999 ms with the network down, and refresh it at 300001 ms. -/
theorem c9_witness :
    makeRequest ([] : MLBCache ℕ) "u" 0 (.ok 42) = (.ok 42, cacheSet [] "u" ⟨42, 0⟩, 1) ∧
    makeRequest (cacheSet ([] : MLBCache ℕ) "u" ⟨42, 0⟩) "u" 299999 (.fail "down") =
      (.ok 42, cacheSet [] "u" ⟨42, 0⟩, 0) ∧
    makeRequest (cacheSet ([] : MLBCache ℕ) "u" ⟨42, 0⟩) "u" 300001 (.ok 43) =
      (.ok 43, cacheSet (cacheSet [] "u" ⟨42, 0⟩) "u" ⟨43, 300001⟩, 1) :=
  ⟨(c9_cache_ttl.1 [] "u" 0 42 rfl).1,
   c9_cache_ttl.2.1 _ "u" 0 299999 42 (.fail "down") (by decide)
     (by norm_num [mlbCacheTimeout]),
   (c9_cache_ttl.2.2 _ "u" 0 300001 42 43 (by decide)
     (by norm_num [mlbCacheTimeout])).1⟩

theorem fetchPitcherStats_ok (side : Option Pitcher) (v : Option TeamStatsRaw) :
    fetchPitcherStats side (.ok v) = .ok (if side.isSome then v else none) := by
  cases side <;> rfl

theorem exceptBindOk {α β : Type} (a : α) (f : α → Except String β) :
    (Except.ok a >>= f) = f a := rfl

theorem exceptBindErr {α β : Type} (m : String) (f : α → Except String β) :
    ((Except.error m : Except String α) >>= f) = Except.error m := rfl

/-- C3: a schedule with no game (null schedule, missing or empty `dates`,
or a first date entry with no game) makes `scheduleFirstGame` empty, and
in that case a cache-missing `getGiantsGamePreview` returns exactly the
typed `{success:false, error:"No Giants game found for the specified
date", date}` envelope with zero LLM completion calls. -/
theorem c3_no_game_envelope :
    (scheduleFirstGame none = none ∧
      scheduleFirstGame (some {}) = none ∧
      scheduleFirstGame (some { dates := some [] }) = none ∧
      (∀ rest : List ScheduleDate,
        scheduleFirstGame (some { dates := some ({ games := [] } :: rest) }) = none)) ∧
    (∀ (env : OrchestratorEnv) (req : PreviewRequest) (sched : Option ScheduleResp),
      req.cached = none → env.schedule = .ok sched → scheduleFirstGame sched = none →
        getGiantsGamePreview env req =
          ({ success := false, error := some "No Giants game found for the specified date",
             date := req.gameDate }, 0)) := by
  refine ⟨⟨rfl, rfl, rfl, fun rest => rfl⟩, ?_⟩
  intro env req sched hc hs hng
  have hfetch : fetchComprehensiveGameData env = .ok { gameFound := false } := by
    simp [fetchComprehensiveGameData, hs, Fetch.toExcept, exceptBindOk, hng, pure,
      Except.pure]
  have hmain : previewMainFlow env req =
      ({ success := false, error := some "No Giants game found for the specified date",
         date := req.gameDate }, 0) := by
    simp [previewMainFlow, hfetch]
  cases he : req.enableCaching <;> simp [getGiantsGamePreview, hc, he, hmain]

/-- Witness for C3: a concrete environment whose schedule resolves with an
empty `dates` array. -/
theorem c3_witness :
    getGiantsGamePreview
        (mkEnv (some { dates := some [] }) none none [] [] none none none none
          (.ok none) (.ok none) (.ok none) (.ok "unused"))
        { gameDate := "2024-07-01" } =
      ({ success := false, error := some "No Giants game found for the specified date",
         date := "2024-07-01" }, 0) :=
  c3_no_game_envelope.2 _ _ (some { dates := some [] }) rfl rfl rfl

/-- C5: best-effort fetches (weather, either injury report) failing never
abort `fetchComprehensiveGameData` — the flow still resolves with the
corresponding fields simply absent, and the overall request can still
succeed — whereas a schedule or team-stats fetch failure aborts the flow
and is mapped to the typed `{success:false, error, date}` envelope (no
exception, no LLM call). -/
theorem c5_partial_failure_policy :
    (∀ (sched : Option ScheduleResp) (game : Game) (gs os : Option TeamStatsRaw)
       (grg org : List Game) (h2h : Option H2HRaw) (pp : Option ProbablePitchers)
       (hps aps : Option TeamStatsRaw) (wmsg gimsg oimsg : String) (llm : Fetch String),
      scheduleFirstGame sched = some game →
        fetchComprehensiveGameData
            (mkEnv sched gs os grg org h2h pp hps aps (.fail wmsg) (.fail gimsg)
              (.fail oimsg) llm) =
          .ok { gameFound := true
                game := some game
                opponent := some (if game.teams.home.team.id = giantsTeamId then
                  game.teams.away.team else game.teams.home.team)
                isHomeGame := decide (game.teams.home.team.id = giantsTeamId)
                giantsStats := gs
                opponentStats := os
                giantsRecentGames := some grg
                opponentRecentGames := some org
                headToHead := h2h
                probablePitchers := pp
                homePitcherStats := if (ppHome pp).isSome then hps else none
                awayPitcherStats := if (ppAway pp).isSome then aps else none
                weather := none
                giantsInjuries := none
                opponentInjuries := none }) ∧
    (∀ (sched : Option ScheduleResp) (game : Game) (gs os : Option TeamStatsRaw)
       (grg org : List Game) (h2h : Option H2HRaw) (pp : Option ProbablePitchers)
       (hps aps : Option TeamStatsRaw) (w : Option WeatherRaw) (gi : Option InjuriesRaw)
       (oimsg : String) (llm : Fetch String),
      scheduleFirstGame sched = some game →
        fetchComprehensiveGameData
            (mkEnv sched gs os grg org h2h pp hps aps (.ok w) (.ok gi)
              (.fail oimsg) llm) =
          .ok { gameFound := true
                game := some game
                opponent := some (if game.teams.home.team.id = giantsTeamId then
                  game.teams.away.team else game.teams.home.team)
                isHomeGame := decide (game.teams.home.team.id = giantsTeamId)
                giantsStats := gs
                opponentStats := os
                giantsRecentGames := some grg
                opponentRecentGames := some org
                headToHead := h2h
                probablePitchers := pp
                homePitcherStats := if (ppHome pp).isSome then hps else none
                awayPitcherStats := if (ppAway pp).isSome then aps else none
                weather := w
                giantsInjuries := gi
                opponentInjuries := none }) ∧
    (∀ wmsg gimsg oimsg llmText date : String,
      (getGiantsGamePreview
          (mkEnv (schedWith sampleGame) (some sampleStatsRaw) (some sampleStatsRaw)
            [] [] none none none none (.fail wmsg) (.fail gimsg) (.fail oimsg)
            (.ok llmText))
          { gameDate := date }).1.success = true) ∧
    (∀ (env : OrchestratorEnv) (req : PreviewRequest) (msg : String),
      req.cached = none → env.schedule = .fail msg →
        getGiantsGamePreview env req =
          ({ success := false, error := some msg, date := req.gameDate }, 0)) ∧
    (∀ (sched : Option ScheduleResp) (game : Game) (req : PreviewRequest) (msg : String)
       (os : Option TeamStatsRaw) (grg org : List Game) (h2h : Option H2HRaw)
       (pp : Option ProbablePitchers) (hps aps : Option TeamStatsRaw)
       (w : Fetch (Option WeatherRaw)) (gi oi : Fetch (Option InjuriesRaw))
       (llm : Fetch String),
      req.cached = none → scheduleFirstGame sched = some game →
        getGiantsGamePreview
            ({ mkEnv sched none os grg org h2h pp hps aps w gi oi llm with
               giantsStats := .fail msg }) req =
          ({ success := false, error := some msg, date := req.gameDate }, 0)) ∧
    (∀ (sched : Option ScheduleResp) (game : Game) (req : PreviewRequest) (msg : String)
       (gs : Option TeamStatsRaw) (grg org : List Game) (h2h : Option H2HRaw)
       (pp : Option ProbablePitchers) (hps aps : Option TeamStatsRaw)
       (w : Fetch (Option WeatherRaw)) (gi oi : Fetch (Option InjuriesRaw))
       (llm : Fetch String),
      req.cached = none → scheduleFirstGame sched = some game →
        getGiantsGamePreview
            ({ mkEnv sched gs none grg org h2h pp hps aps w gi oi llm with
               opponentStats := .fail msg }) req =
          ({ success := false, error := some msg, date := req.gameDate }, 0)) := by
  refine ⟨?_, ?_, ?_, ?_, ?_, ?_⟩
  · intro sched game gs os grg org h2h pp hps aps wmsg gimsg oimsg llm hgame
    simp [fetchComprehensiveGameData, mkEnv, Fetch.toExcept, exceptBindOk, hgame,
      fetchPitcherStats_ok, pure, Except.pure]
  · intro sched game gs os grg org h2h pp hps aps w gi oimsg llm hgame
    simp [fetchComprehensiveGameData, mkEnv, Fetch.toExcept, exceptBindOk, hgame,
      fetchPitcherStats_ok, pure, Except.pure]
  · intro wmsg gimsg oimsg llmText date
    rfl
  · intro env req msg hc hs
    have hfetch : fetchComprehensiveGameData env = .error msg := by
      simp [fetchComprehensiveGameData, hs, Fetch.toExcept, exceptBindErr]
    have hmain : previewMainFlow env req =
        ({ success := false, error := some msg, date := req.gameDate }, 0) := by
      simp [previewMainFlow, hfetch]
    cases he : req.enableCaching <;> simp [getGiantsGamePreview, hc, he, hmain]
  · intro sched game req msg os grg org h2h pp hps aps w gi oi llm hc hgame
    have hfetch : fetchComprehensiveGameData
        ({ mkEnv sched none os grg org h2h pp hps aps w gi oi llm with
           giantsStats := .fail msg }) = .error msg := by
      simp [fetchComprehensiveGameData, mkEnv, Fetch.toExcept, exceptBindOk,
        exceptBindErr, hgame]
    have hmain : previewMainFlow
        ({ mkEnv sched none os grg org h2h pp hps aps w gi oi llm with
           giantsStats := .fail msg }) req =
        ({ success := false, error := some msg, date := req.gameDate }, 0) := by
      simp [previewMainFlow, hfetch]
    cases he : req.enableCaching <;> simp [getGiantsGamePreview, hc, he, hmain]
  · intro sched game req msg gs grg org h2h pp hps aps w gi oi llm hc hgame
    have hfetch : fetchComprehensiveGameData
        ({ mkEnv sched gs none grg org h2h pp hps aps w gi oi llm with
           opponentStats := .fail msg }) = .error msg := by
      simp [fetchComprehensiveGameData, mkEnv, Fetch.toExcept, exceptBindOk,
        exceptBindErr, hgame]
    have hmain : previewMainFlow
        ({ mkEnv sched gs none grg org h2h pp hps aps w gi oi llm with
           opponentStats := .fail msg }) req =
        ({ success := false, error := some msg, date := req.gameDate }, 0) := by
      simp [previewMainFlow, hfetch]
    cases he : req.enableCaching <;> simp [getGiantsGamePreview, hc, he, hmain]

/-- Witness for C5: a concrete game day on which the weather and both
injury fetches fail yet the fetched data resolves (fields absent) and the
preview succeeds, plus a concrete mandatory team-stats failure surfacing
as the typed envelope. -/
theorem c5_witness :
    (fetchComprehensiveGameData
        (mkEnv (schedWith sampleGame) (some sampleStatsRaw) (some sampleStatsRaw)
          [] [] none none none none (.fail "weather down") (.fail "inj down")
          (.fail "inj down") (.ok "text"))).map
        (fun d => (d.gameFound, d.weather, d.giantsInjuries, d.opponentInjuries)) =
      .ok (true, none, none, none) ∧
    (getGiantsGamePreview
        (mkEnv (schedWith sampleGame) (some sampleStatsRaw) (some sampleStatsRaw)
          [] [] none none none none (.fail "weather down") (.fail "inj down")
          (.fail "inj down") (.ok "text"))
        { gameDate := "2024-07-01" }).1.success = true ∧
    getGiantsGamePreview
        ({ mkEnv (schedWith sampleGame) none none [] [] none none none none
            (.ok none) (.ok none) (.ok none) (.ok "text") with
           giantsStats := .fail "stats down" })
        { gameDate := "2024-07-01" } =
      ({ success := false, error := some "stats down", date := "2024-07-01" }, 0) := by
  refine ⟨?_, ?_, ?_⟩
  · rw [c5_partial_failure_policy.1 (schedWith sampleGame) sampleGame
      (some sampleStatsRaw) (some sampleStatsRaw) [] [] none none none none
      "weather down" "inj down" "inj down" (.ok "text") rfl]
    rfl
  · exact c5_partial_failure_policy.2.2.1 "weather down" "inj down" "inj down" "text"
      "2024-07-01"
  · exact c5_partial_failure_policy.2.2.2.2.1 (schedWith sampleGame) sampleGame
      { gameDate := "2024-07-01" } "stats down" none [] [] none none none none
      (.ok none) (.ok none) (.ok none) (.ok "text") rfl rfl


theorem ciStripLit_prefix :
    ∀ (lit cs r : List Char), ciStripLit lit cs = some r → lit <+: lowerL cs := by
  intro lit
  induction lit with
  | nil => intro cs r _; exact List.nil_prefix
  | cons l lt ih =>
    intro cs r h
    cases cs with
    | nil => exact absurd h (by simp [ciStripLit])
    | cons c ct =>
      simp only [ciStripLit] at h
      by_cases hc : toLowerChar c = l
      · rw [if_pos hc] at h
        have := ih ct r h
        simp only [lowerL, List.map_cons]
        exact List.cons_prefix_cons.mpr ⟨hc.symm, this⟩
      · rw [if_neg hc] at h
        exact absurd h (by simp)

theorem matchSectionAt_infix {lit : List Char} {tail : List Char → Option (List Char)}
    {cs r : List Char} (h : matchSectionAt lit tail cs = some r) : lit <:+: lowerL cs := by
  match cs with
  | [] => exact absurd h (by rw [show matchSectionAt lit tail [] = none from rfl]; simp)
  | [c] => exact absurd h (by rw [show matchSectionAt lit tail [c] = none from rfl]; simp)
  | c1 :: c2 :: rest =>
    have hred : matchSectionAt lit tail (c1 :: c2 :: rest) =
        (if c1 = '#' ∧ c2 = '#' then
          (match ciStripLit lit (rest.dropWhile isWsChar) with
           | some r1 => (tail r1).map takeUntilHH
           | none => none)
         else none) := rfl
    rw [hred] at h
    by_cases h12 : c1 = '#' ∧ c2 = '#'
    · rw [if_pos h12] at h
      cases hstrip : ciStripLit lit (rest.dropWhile isWsChar) with
      | none => rw [hstrip] at h; exact absurd h (by simp)
      | some r1 =>
        have hpre := ciStripLit_prefix lit _ r1 hstrip
        have hsuf : lowerL (rest.dropWhile isWsChar) <:+ lowerL rest :=
          (List.dropWhile_suffix isWsChar).map toLowerChar
        have hinf : lit <:+: lowerL rest := hpre.isInfix.trans hsuf.isInfix
        have hsuf2 : lowerL rest <:+ lowerL (c1 :: c2 :: rest) := by
          simp only [lowerL, List.map_cons]
          exact (List.suffix_cons _ _).trans (List.suffix_cons _ _)
        exact hinf.trans hsuf2.isInfix
    · rw [if_neg h12] at h
      exact absurd h (by simp)

theorem scanFirst_some {m : List Char → Option (List Char)} :
    ∀ {cs r : List Char}, scanFirst m cs = some r → ∃ s, s <:+ cs ∧ m s = some r := by
  intro cs
  induction cs with
  | nil => intro r h; exact ⟨[], List.suffix_refl _, h⟩
  | cons c t ih =>
    intro r h
    simp only [scanFirst] at h
    cases hm : m (c :: t) with
    | some r0 =>
      rw [hm] at h
      exact ⟨c :: t, List.suffix_refl _, hm.trans h⟩
    | none =>
      rw [hm] at h
      obtain ⟨s, hs, hms⟩ := ih h
      exact ⟨s, hs.trans (List.suffix_cons c t), hms⟩

theorem section_absent {lit : List Char} {tail : List Char → Option (List Char)}
    {text : List Char} (h : ¬ (lit <:+: lowerL text)) :
    scanFirst (matchSectionAt lit tail) text = none := by
  cases hs : scanFirst (matchSectionAt lit tail) text with
  | none => rfl
  | some r =>
    obtain ⟨s, hsuf, hm⟩ := scanFirst_some hs
    have h1 : lit <:+: lowerL s := matchSectionAt_infix hm
    have h2 : lowerL s <:+ lowerL text := hsuf.map toLowerChar
    exact absurd (h1.trans h2.isInfix) h

theorem matchSectionAt_not_hash {lit : List Char} {tail : List Char → Option (List Char)}
    {c : Char} {t : List Char} (hc : c ≠ '#') : matchSectionAt lit tail (c :: t) = none := by
  cases t with
  | nil => rfl
  | cons c2 t2 =>
    rw [show matchSectionAt lit tail (c :: c2 :: t2) =
        (if c = '#' ∧ c2 = '#' then
          (match ciStripLit lit (t2.dropWhile isWsChar) with
           | some r1 => (tail r1).map takeUntilHH
           | none => none)
         else none) from rfl]
    rw [if_neg (by simp [hc])]

theorem matchSectionAt_hash_not_hash {lit : List Char}
    {tail : List Char → Option (List Char)} {c : Char} {t : List Char} (hc : c ≠ '#') :
    matchSectionAt lit tail ('#' :: c :: t) = none := by
  rw [show matchSectionAt lit tail ('#' :: c :: t) =
      (if '#' = '#' ∧ c = '#' then
        (match ciStripLit lit (t.dropWhile isWsChar) with
         | some r1 => (tail r1).map takeUntilHH
         | none => none)
       else none) from rfl]
  rw [if_neg (by simp [hc])]

theorem scanFirst_cons_none {m : List Char → Option (List Char)} {c : Char}
    {t : List Char} (h : m (c :: t) = none) : scanFirst m (c :: t) = scanFirst m t := by
  simp only [scanFirst]
  rw [h]

theorem scanFirst_cons_some {m : List Char → Option (List Char)} {c : Char}
    {t r : List Char} (h : m (c :: t) = some r) : scanFirst m (c :: t) = some r := by
  simp only [scanFirst]
  rw [h]

theorem scan_clean {m : List Char → Option (List Char)}
    (hm1 : ∀ (c : Char) (t : List Char), c ≠ '#' → m (c :: t) = none) :
    ∀ (A B : List Char), (∀ x ∈ A, x ≠ '#') → scanFirst m (A ++ B) = scanFirst m B := by
  intro A
  induction A with
  | nil => intro B _; rfl
  | cons a A ih =>
    intro B hA
    rw [List.cons_append, scanFirst_cons_none (hm1 a _ (hA a (List.mem_cons_self a A)))]
    exact ih B (fun x hx => hA x (List.mem_cons_of_mem a hx))

theorem scan_skip_block {m : List Char → Option (List Char)}
    (hm1 : ∀ (c : Char) (t : List Char), c ≠ '#' → m (c :: t) = none)
    (hm2 : ∀ (c : Char) (t : List Char), c ≠ '#' → m ('#' :: c :: t) = none)
    {h : String} {p rest : List Char}
    (hfail : m (secBlock h p rest) = none)
    (hh : ∀ x ∈ h.data, x ≠ '#') (hp : ∀ x ∈ p, x ≠ '#') :
    scanFirst m (secBlock h p rest) = scanFirst m rest := by
  simp only [secBlock] at hfail ⊢
  rw [scanFirst_cons_none hfail]
  rw [scanFirst_cons_none (hm2 ' ' _ (by decide))]
  have hre : ' ' :: (h.data ++ '\n' :: (p ++ '\n' :: rest)) =
      (' ' :: (h.data ++ '\n' :: (p ++ ['\n']))) ++ rest := by simp
  rw [hre]
  refine scan_clean hm1 _ rest ?_
  intro x hx
  simp only [List.mem_cons, List.mem_append, List.mem_singleton] at hx
  rcases hx with hx | hx | hx | hx | hx | hx
  · subst hx; decide
  · exact hh x hx
  · subst hx; decide
  · exact hp x hx
  · subst hx; decide
  · exact absurd hx (List.not_mem_nil x)

theorem chompWsNl_nl {c : Char} (hc : isWsChar c = false) (t : List Char) :
    chompWsNl ('\n' :: c :: t) = some (c :: t) := by
  have h1 : isWsChar '\n' = true := rfl
  simp [chompWsNl, List.takeWhile_cons, h1, hc]

theorem weatherTail_venue {c : Char} (hc : isWsChar c = false) (t : List Char) :
    weatherTail ("/Venue Impact".data ++ '\n' :: c :: t) = some (c :: t) := by
  show ((chompWsNl ('\n' :: c :: t)).orElse
    fun _ => weatherTail ("mpact".data ++ '\n' :: c :: t)) = some (c :: t)
  rw [chompWsNl_nl hc]
  rfl

theorem takeUntilHH_cons_ne {c : Char} {t : List Char} (hc : c ≠ '#') :
    takeUntilHH (c :: t) = c :: takeUntilHH t := by
  rw [show takeUntilHH (c :: t) =
      (if c = '#' ∧ t.head? = some '#' then [] else c :: takeUntilHH t) from rfl]
  rw [if_neg (by simp [hc])]

theorem takeUntilHH_capture {P R : List Char} (hp : ∀ x ∈ P, x ≠ '#') :
    takeUntilHH (P ++ '\n' :: '#' :: '#' :: R) = P ++ ['\n'] := by
  induction P with
  | nil => rfl
  | cons a P ih =>
    rw [List.cons_append, takeUntilHH_cons_ne (hp a (List.mem_cons_self a P)),
      ih (fun x hx => hp x (List.mem_cons_of_mem a hx)), List.cons_append]

theorem takeUntilHH_all {L : List Char} (h : ∀ x ∈ L, x ≠ '#') : takeUntilHH L = L := by
  induction L with
  | nil => rfl
  | cons a L ih =>
    rw [takeUntilHH_cons_ne (h a (List.mem_cons_self a L)),
      ih (fun x hx => h x (List.mem_cons_of_mem a hx))]

theorem trimL_cons_nl {c : Char} (hc : isWsChar c = false) (q : List Char) :
    trimL ((c :: q) ++ ['\n']) = trimL (c :: q) := by
  have h1 : isWsChar '\n' = true := rfl
  simp [trimL, List.dropWhile_cons, hc, List.reverse_append, h1]

theorem dropWhile_append_singleton_ne_nil {c : Char} (hc : isWsChar c = false) :
    ∀ A : List Char, (A ++ [c]).dropWhile isWsChar ≠ [] := by
  intro A
  induction A with
  | nil => simp [List.dropWhile_cons, hc]
  | cons a A ih =>
    by_cases hw : isWsChar a <;> simp [List.dropWhile_cons, hw, ih]

theorem trimL_cons_ne_nil {c : Char} (hc : isWsChar c = false) (q : List Char) :
    trimL (c :: q) ≠ [] := by
  simp only [trimL, List.dropWhile_cons, hc, Bool.false_eq_true, if_false,
    List.reverse_cons, ne_eq, List.reverse_eq_nil_iff]
  exact dropWhile_append_singleton_ne_nil hc q.reverse

theorem ciMismatchWithin_append {lit : List Char} :
    ∀ {H : List Char}, ciMismatchWithin lit H = true →
      ∀ X, ciStripLit lit (H ++ X) = none := by
  induction lit with
  | nil =>
    intro H h X
    cases H with
    | nil => exact absurd h (by simp [ciMismatchWithin])
    | cons c ct => exact absurd h (by simp [ciMismatchWithin])
  | cons l lt ih =>
    intro H h X
    cases H with
    | nil => exact absurd h (by simp [ciMismatchWithin])
    | cons c ct =>
      simp only [ciMismatchWithin] at h
      by_cases hc : toLowerChar c = l
      · rw [if_pos hc] at h
        simp only [List.cons_append, ciStripLit, if_pos hc]
        exact ih h X
      · simp only [List.cons_append, ciStripLit, if_neg hc]

theorem ciStripLit_append {lit : List Char} :
    ∀ {H rem : List Char}, ciStripLit lit H = some rem →
      ∀ X, ciStripLit lit (H ++ X) = some (rem ++ X) := by
  induction lit with
  | nil =>
    intro H rem h X
    simp only [ciStripLit, Option.some.injEq] at h
    subst h
    rfl
  | cons l lt ih =>
    intro H rem h X
    cases H with
    | nil => exact absurd h (by simp [ciStripLit])
    | cons c ct =>
      simp only [ciStripLit] at h
      by_cases hc : toLowerChar c = l
      · rw [if_pos hc] at h
        simp only [List.cons_append, ciStripLit, if_pos hc]
        exact ih h X
      · rw [if_neg hc] at h
        exact absurd h (by simp)

theorem lazyToNl_skip {rem : List Char} (h : ¬ '\n' ∈ rem) :
    ∀ X, lazyToNl (rem ++ '\n' :: X) = some X := by
  induction rem with
  | nil => intro X; rfl
  | cons a rem ih =>
    intro X
    have ha : a ≠ '\n' := fun he => h (he ▸ List.mem_cons_self a rem)
    rw [List.cons_append]
    simp only [lazyToNl]
    rw [if_neg ha]
    exact ih (fun hm => h (List.mem_cons_of_mem a hm)) X

theorem dropWhile_space_block {Hc : Char} {Ht Y : List Char} (hh : isWsChar Hc = false) :
    (' ' :: ((Hc :: Ht) ++ Y)).dropWhile isWsChar = (Hc :: Ht) ++ Y := by
  have hsp : isWsChar ' ' = true := rfl
  simp [List.dropWhile_cons, hsp, hh]

theorem scan_skip_section {lit : List Char} {tail : List Char → Option (List Char)}
    {H p rest : List Char}
    (hmis : ciMismatchWithin lit H = true) (hne : H ≠ [])
    (hhead : isWsChar (H.headD ' ') = false)
    (hh : ∀ x ∈ H, x ≠ '#') (hp : ∀ x ∈ p, x ≠ '#') :
    scanFirst (matchSectionAt lit tail)
        ('#' :: '#' :: ' ' :: (H ++ '\n' :: (p ++ '\n' :: rest)))
      = scanFirst (matchSectionAt lit tail) rest := by
  obtain ⟨Hc, Ht, rfl⟩ : ∃ Hc Ht, H = Hc :: Ht := by
    cases H with
    | nil => exact absurd rfl hne
    | cons a b => exact ⟨a, b, rfl⟩
  have hh2 : isWsChar Hc = false := hhead
  have hfail : matchSectionAt lit tail
      ('#' :: '#' :: ' ' :: ((Hc :: Ht) ++ '\n' :: (p ++ '\n' :: rest))) = none := by
    rw [show matchSectionAt lit tail
        ('#' :: '#' :: ' ' :: ((Hc :: Ht) ++ '\n' :: (p ++ '\n' :: rest))) =
        (match ciStripLit lit
            ((' ' :: ((Hc :: Ht) ++ '\n' :: (p ++ '\n' :: rest))).dropWhile isWsChar) with
         | some r1 => (tail r1).map takeUntilHH
         | none => none) from rfl]
    rw [dropWhile_space_block hh2, ciMismatchWithin_append hmis]
  rw [scanFirst_cons_none hfail]
  rw [scanFirst_cons_none (matchSectionAt_hash_not_hash (by decide))]
  have hre : ' ' :: ((Hc :: Ht) ++ '\n' :: (p ++ '\n' :: rest)) =
      (' ' :: ((Hc :: Ht) ++ '\n' :: (p ++ ['\n']))) ++ rest := by simp
  rw [hre]
  refine scan_clean (fun c t hc => matchSectionAt_not_hash hc) _ rest ?_
  intro x hx
  have hx2 : x = ' ' ∨ (x = Hc ∨ x ∈ Ht) ∨ x = '\n' ∨ x ∈ p := by
    simp only [List.mem_cons, List.mem_append, List.mem_singleton] at hx
    tauto
  rcases hx2 with hx2 | hx2 | hx2 | hx2
  · subst hx2; decide
  · exact hh x (List.mem_cons.mpr hx2)
  · subst hx2; decide
  · exact hp x hx2

theorem scan_match_exact {lit H : List Char} {c : Char} {q R : List Char}
    (hne : H ≠ []) (hhead : isWsChar (H.headD ' ') = false)
    (hexact : ciStripLit lit H = some [])
    (hcw : isWsChar c = false) (hpq : ∀ x ∈ c :: q, x ≠ '#') :
    scanFirst (matchSectionAt lit chompWsNl)
        ('#' :: '#' :: ' ' :: (H ++ '\n' :: ((c :: q) ++ '\n' :: ('#' :: '#' :: R))))
      = some ((c :: q) ++ ['\n']) := by
  obtain ⟨Hc, Ht, rfl⟩ : ∃ Hc Ht, H = Hc :: Ht := by
    cases H with
    | nil => exact absurd rfl hne
    | cons a b => exact ⟨a, b, rfl⟩
  have hh2 : isWsChar Hc = false := hhead
  apply scanFirst_cons_some
  rw [show matchSectionAt lit chompWsNl
      ('#' :: '#' :: ' ' :: ((Hc :: Ht) ++ '\n' :: ((c :: q) ++ '\n' :: ('#' :: '#' :: R)))) =
      (match ciStripLit lit
          ((' ' :: ((Hc :: Ht) ++ '\n' :: ((c :: q) ++ '\n' :: ('#' :: '#' :: R)))).dropWhile
            isWsChar) with
       | some r1 => (chompWsNl r1).map takeUntilHH
       | none => none) from rfl]
  rw [dropWhile_space_block hh2, ciStripLit_append hexact]
  show (chompWsNl ('\n' :: ((c :: q) ++ '\n' :: ('#' :: '#' :: R)))).map takeUntilHH =
      some ((c :: q) ++ ['\n'])
  rw [show ('\n' :: ((c :: q) ++ '\n' :: ('#' :: '#' :: R))) =
      '\n' :: c :: (q ++ '\n' :: ('#' :: '#' :: R)) from rfl]
  rw [chompWsNl_nl hcw]
  exact congrArg some (takeUntilHH_capture hpq)

theorem scan_match_gap (rem : List Char) {lit H : List Char} {c : Char} {q R : List Char}
    (hne : H ≠ []) (hhead : isWsChar (H.headD ' ') = false)
    (hstrip : ciStripLit lit H = some rem) (hnl : ¬ '\n' ∈ rem)
    (hpq : ∀ x ∈ c :: q, x ≠ '#') :
    scanFirst (matchSectionAt lit lazyToNl)
        ('#' :: '#' :: ' ' :: (H ++ '\n' :: ((c :: q) ++ '\n' :: ('#' :: '#' :: R))))
      = some ((c :: q) ++ ['\n']) := by
  obtain ⟨Hc, Ht, rfl⟩ : ∃ Hc Ht, H = Hc :: Ht := by
    cases H with
    | nil => exact absurd rfl hne
    | cons a b => exact ⟨a, b, rfl⟩
  have hh2 : isWsChar Hc = false := hhead
  apply scanFirst_cons_some
  rw [show matchSectionAt lit lazyToNl
      ('#' :: '#' :: ' ' :: ((Hc :: Ht) ++ '\n' :: ((c :: q) ++ '\n' :: ('#' :: '#' :: R)))) =
      (match ciStripLit lit
          ((' ' :: ((Hc :: Ht) ++ '\n' :: ((c :: q) ++ '\n' :: ('#' :: '#' :: R)))).dropWhile
            isWsChar) with
       | some r1 => (lazyToNl r1).map takeUntilHH
       | none => none) from rfl]
  rw [dropWhile_space_block hh2, ciStripLit_append hstrip]
  show (lazyToNl (rem ++ '\n' :: ((c :: q) ++ '\n' :: ('#' :: '#' :: R)))).map takeUntilHH =
      some ((c :: q) ++ ['\n'])
  rw [lazyToNl_skip hnl]
  exact congrArg some (takeUntilHH_capture hpq)

theorem scan_match_gap_last (rem : List Char) {lit H : List Char} {c : Char} {q : List Char}
    (hne : H ≠ []) (hhead : isWsChar (H.headD ' ') = false)
    (hstrip : ciStripLit lit H = some rem) (hnl : ¬ '\n' ∈ rem)
    (hpq : ∀ x ∈ c :: q, x ≠ '#') :
    scanFirst (matchSectionAt lit lazyToNl)
        ('#' :: '#' :: ' ' :: (H ++ '\n' :: ((c :: q) ++ '\n' :: ([] : List Char))))
      = some ((c :: q) ++ ['\n']) := by
  obtain ⟨Hc, Ht, rfl⟩ : ∃ Hc Ht, H = Hc :: Ht := by
    cases H with
    | nil => exact absurd rfl hne
    | cons a b => exact ⟨a, b, rfl⟩
  have hh2 : isWsChar Hc = false := hhead
  apply scanFirst_cons_some
  rw [show matchSectionAt lit lazyToNl
      ('#' :: '#' :: ' ' :: ((Hc :: Ht) ++ '\n' :: ((c :: q) ++ '\n' :: ([] : List Char)))) =
      (match ciStripLit lit
          ((' ' :: ((Hc :: Ht) ++ '\n' :: ((c :: q) ++ '\n' :: ([] : List Char)))).dropWhile
            isWsChar) with
       | some r1 => (lazyToNl r1).map takeUntilHH
       | none => none) from rfl]
  rw [dropWhile_space_block hh2, ciStripLit_append hstrip]
  show (lazyToNl (rem ++ '\n' :: ((c :: q) ++ '\n' :: ([] : List Char)))).map takeUntilHH =
      some ((c :: q) ++ ['\n'])
  rw [lazyToNl_skip hnl]
  refine congrArg some (takeUntilHH_all ?_)
  intro x hx
  have hx2 : (x = c ∨ x ∈ q) ∨ x = '\n' := by
    simp only [List.mem_append, List.mem_cons, List.mem_singleton] at hx
    tauto
  rcases hx2 with hx2 | hx2
  · exact hpq x (List.mem_cons.mpr hx2)
  · subst hx2; decide

theorem scan_match_weather {c : Char} {q R : List Char}
    (hcw : isWsChar c = false) (hpq : ∀ x ∈ c :: q, x ≠ '#') :
    scanFirst (matchSectionAt "weather".data weatherTail)
        ('#' :: '#' :: ' ' ::
          ("Weather/Venue Impact".data ++ '\n' :: ((c :: q) ++ '\n' :: ('#' :: '#' :: R))))
      = some ((c :: q) ++ ['\n']) := by
  apply scanFirst_cons_some
  show (weatherTail
      ("/Venue Impact".data ++ '\n' :: c :: (q ++ '\n' :: ('#' :: '#' :: R)))).map takeUntilHH
      = some ((c :: q) ++ ['\n'])
  rw [weatherTail_venue hcw]
  exact congrArg some (takeUntilHH_capture hpq)

/-- C8: (a) a text containing none of the template headings yields an
empty section map — no extractor matches and nothing is thrown (the
function is total); (b) for every document carrying all eight template
headings in order, each followed by non-empty placeholder text (no `#`,
starting with a non-whitespace character), every section is recovered
with non-empty trimmed `content`. -/
theorem c8_section_extraction :
    (∀ text : List Char,
      ¬ ("game overview".data <:+: lowerL text) →
      ¬ ("pitching matchup analysis".data <:+: lowerL text) →
      ¬ ("key offensive matchups".data <:+: lowerL text) →
      ¬ ("team momentum".data <:+: lowerL text) →
      ¬ ("strategic factors".data <:+: lowerL text) →
      ¬ ("key players".data <:+: lowerL text) →
      ¬ ("weather".data <:+: lowerL text) →
      ¬ ("prediction".data <:+: lowerL text) →
        extractStructuredSections text = {}) ∧
    (∀ (c1 c2 c3 c4 c5 c6 c7 c8 : Char) (q1 q2 q3 q4 q5 q6 q7 q8 : List Char),
      isWsChar c1 = false → (∀ x ∈ c1 :: q1, x ≠ '#') →
      isWsChar c2 = false → (∀ x ∈ c2 :: q2, x ≠ '#') →
      isWsChar c3 = false → (∀ x ∈ c3 :: q3, x ≠ '#') →
      isWsChar c4 = false → (∀ x ∈ c4 :: q4, x ≠ '#') →
      isWsChar c5 = false → (∀ x ∈ c5 :: q5, x ≠ '#') →
      isWsChar c6 = false → (∀ x ∈ c6 :: q6, x ≠ '#') →
      isWsChar c7 = false → (∀ x ∈ c7 :: q7, x ≠ '#') →
      isWsChar c8 = false → (∀ x ∈ c8 :: q8, x ≠ '#') →
        extractStructuredSections
            (canonicalDoc (c1 :: q1) (c2 :: q2) (c3 :: q3) (c4 :: q4) (c5 :: q5)
              (c6 :: q6) (c7 :: q7) (c8 :: q8)) =
          { gameOverview := some (trimL (c1 :: q1))
            pitchingMatchup := some (trimL (c2 :: q2))
            offensiveMatchups := some (trimL (c3 :: q3))
            teamMomentum := some (trimL (c4 :: q4))
            strategicFactors := some (trimL (c5 :: q5))
            keyPlayers := some (trimL (c6 :: q6))
            weatherVenue := some (trimL (c7 :: q7))
            prediction := some (trimL (c8 :: q8)) } ∧
        trimL (c1 :: q1) ≠ [] ∧ trimL (c2 :: q2) ≠ [] ∧ trimL (c3 :: q3) ≠ [] ∧
        trimL (c4 :: q4) ≠ [] ∧ trimL (c5 :: q5) ≠ [] ∧ trimL (c6 :: q6) ≠ [] ∧
        trimL (c7 :: q7) ≠ [] ∧ trimL (c8 :: q8) ≠ []) := by
  constructor
  · intro text h1 h2 h3 h4 h5 h6 h7 h8
    simp only [extractStructuredSections, section_absent h1, section_absent h2,
      section_absent h3, section_absent h4, section_absent h5, section_absent h6,
      section_absent h7, section_absent h8, Option.map_none']
  · intro c1 c2 c3 c4 c5 c6 c7 c8 q1 q2 q3 q4 q5 q6 q7 q8
      hw1 hp1 hw2 hp2 hw3 hp3 hw4 hp4 hw5 hp5 hw6 hp6 hw7 hp7 hw8 hp8
    have s1 : scanFirst (matchSectionAt "game overview".data chompWsNl)
        (canonicalDoc (c1 :: q1) (c2 :: q2) (c3 :: q3) (c4 :: q4) (c5 :: q5) (c6 :: q6)
          (c7 :: q7) (c8 :: q8)) = some ((c1 :: q1) ++ ['\n']) := by
      simp only [canonicalDoc, docOf, secBlock]
      exact scan_match_exact (by decide) (by decide) (by decide) hw1 hp1
    have s2 : scanFirst (matchSectionAt "pitching matchup analysis".data chompWsNl)
        (canonicalDoc (c1 :: q1) (c2 :: q2) (c3 :: q3) (c4 :: q4) (c5 :: q5) (c6 :: q6)
          (c7 :: q7) (c8 :: q8)) = some ((c2 :: q2) ++ ['\n']) := by
      simp only [canonicalDoc, docOf, secBlock]
      refine (scan_skip_section (by decide) (by decide) (by decide) (by decide) hp1).trans ?_
      exact scan_match_exact (by decide) (by decide) (by decide) hw2 hp2
    have s3 : scanFirst (matchSectionAt "key offensive matchups".data chompWsNl)
        (canonicalDoc (c1 :: q1) (c2 :: q2) (c3 :: q3) (c4 :: q4) (c5 :: q5) (c6 :: q6)
          (c7 :: q7) (c8 :: q8)) = some ((c3 :: q3) ++ ['\n']) := by
      simp only [canonicalDoc, docOf, secBlock]
      refine (scan_skip_section (by decide) (by decide) (by decide) (by decide) hp1).trans ?_
      refine (scan_skip_section (by decide) (by decide) (by decide) (by decide) hp2).trans ?_
      exact scan_match_exact (by decide) (by decide) (by decide) hw3 hp3
    have s4 : scanFirst (matchSectionAt "team momentum".data lazyToNl)
        (canonicalDoc (c1 :: q1) (c2 :: q2) (c3 :: q3) (c4 :: q4) (c5 :: q5) (c6 :: q6)
          (c7 :: q7) (c8 :: q8)) = some ((c4 :: q4) ++ ['\n']) := by
      simp only [canonicalDoc, docOf, secBlock]
      refine (scan_skip_section (by decide) (by decide) (by decide) (by decide) hp1).trans ?_
      refine (scan_skip_section (by decide) (by decide) (by decide) (by decide) hp2).trans ?_
      refine (scan_skip_section (by decide) (by decide) (by decide) (by decide) hp3).trans ?_
      exact scan_match_gap " & Recent Form".data (by decide) (by decide) (by decide)
        (by decide) hp4
    have s5 : scanFirst (matchSectionAt "strategic factors".data chompWsNl)
        (canonicalDoc (c1 :: q1) (c2 :: q2) (c3 :: q3) (c4 :: q4) (c5 :: q5) (c6 :: q6)
          (c7 :: q7) (c8 :: q8)) = some ((c5 :: q5) ++ ['\n']) := by
      simp only [canonicalDoc, docOf, secBlock]
      refine (scan_skip_section (by decide) (by decide) (by decide) (by decide) hp1).trans ?_
      refine (scan_skip_section (by decide) (by decide) (by decide) (by decide) hp2).trans ?_
      refine (scan_skip_section (by decide) (by decide) (by decide) (by decide) hp3).trans ?_
      refine (scan_skip_section (by decide) (by decide) (by decide) (by decide) hp4).trans ?_
      exact scan_match_exact (by decide) (by decide) (by decide) hw5 hp5
    have s6 : scanFirst (matchSectionAt "key players".data lazyToNl)
        (canonicalDoc (c1 :: q1) (c2 :: q2) (c3 :: q3) (c4 :: q4) (c5 :: q5) (c6 :: q6)
          (c7 :: q7) (c8 :: q8)) = some ((c6 :: q6) ++ ['\n']) := by
      simp only [canonicalDoc, docOf, secBlock]
      refine (scan_skip_section (by decide) (by decide) (by decide) (by decide) hp1).trans ?_
      refine (scan_skip_section (by decide) (by decide) (by decide) (by decide) hp2).trans ?_
      refine (scan_skip_section (by decide) (by decide) (by decide) (by decide) hp3).trans ?_
      refine (scan_skip_section (by decide) (by decide) (by decide) (by decide) hp4).trans ?_
      refine (scan_skip_section (by decide) (by decide) (by decide) (by decide) hp5).trans ?_
      exact scan_match_gap " to Watch".data (by decide) (by decide) (by decide)
        (by decide) hp6
    have s7 : scanFirst (matchSectionAt "weather".data weatherTail)
        (canonicalDoc (c1 :: q1) (c2 :: q2) (c3 :: q3) (c4 :: q4) (c5 :: q5) (c6 :: q6)
          (c7 :: q7) (c8 :: q8)) = some ((c7 :: q7) ++ ['\n']) := by
      simp only [canonicalDoc, docOf, secBlock]
      refine (scan_skip_section (by decide) (by decide) (by decide) (by decide) hp1).trans ?_
      refine (scan_skip_section (by decide) (by decide) (by decide) (by decide) hp2).trans ?_
      refine (scan_skip_section (by decide) (by decide) (by decide) (by decide) hp3).trans ?_
      refine (scan_skip_section (by decide) (by decide) (by decide) (by decide) hp4).trans ?_
      refine (scan_skip_section (by decide) (by decide) (by decide) (by decide) hp5).trans ?_
      refine (scan_skip_section (by decide) (by decide) (by decide) (by decide) hp6).trans ?_
      exact scan_match_weather hw7 hp7
    have s8 : scanFirst (matchSectionAt "prediction".data lazyToNl)
        (canonicalDoc (c1 :: q1) (c2 :: q2) (c3 :: q3) (c4 :: q4) (c5 :: q5) (c6 :: q6)
          (c7 :: q7) (c8 :: q8)) = some ((c8 :: q8) ++ ['\n']) := by
      simp only [canonicalDoc, docOf, secBlock]
      refine (scan_skip_section (by decide) (by decide) (by decide) (by decide) hp1).trans ?_
      refine (scan_skip_section (by decide) (by decide) (by decide) (by decide) hp2).trans ?_
      refine (scan_skip_section (by decide) (by decide) (by decide) (by decide) hp3).trans ?_
      refine (scan_skip_section (by decide) (by decide) (by decide) (by decide) hp4).trans ?_
      refine (scan_skip_section (by decide) (by decide) (by decide) (by decide) hp5).trans ?_
      refine (scan_skip_section (by decide) (by decide) (by decide) (by decide) hp6).trans ?_
      refine (scan_skip_section (by decide) (by decide) (by decide) (by decide) hp7).trans ?_
      exact scan_match_gap_last " & Narrative".data (by decide) (by decide) (by decide)
        (by decide) hp8
    refine ⟨?_, trimL_cons_ne_nil hw1 q1, trimL_cons_ne_nil hw2 q2,
      trimL_cons_ne_nil hw3 q3, trimL_cons_ne_nil hw4 q4, trimL_cons_ne_nil hw5 q5,
      trimL_cons_ne_nil hw6 q6, trimL_cons_ne_nil hw7 q7, trimL_cons_ne_nil hw8 q8⟩
    simp only [extractStructuredSections]
    rw [s1, s2, s3, s4, s5, s6, s7, s8]
    simp only [Option.map_some']
    rw [trimL_cons_nl hw1 q1, trimL_cons_nl hw2 q2, trimL_cons_nl hw3 q3,
      trimL_cons_nl hw4 q4, trimL_cons_nl hw5 q5, trimL_cons_nl hw6 q6,
      trimL_cons_nl hw7 q7, trimL_cons_nl hw8 q8]

/-- Witness for C8: a concrete heading-free text yields the empty map, and
a concrete full template document recovers all eight sections. -/
theorem c8_witness :
    extractStructuredSections "just some prose with no markdown headings".data = {} ∧
    extractStructuredSections
        (canonicalDoc "alpha".data "bravo".data "charlie".data "delta".data "echo".data
          "foxtrot".data "golf".data "hotel".data) =
      { gameOverview := some "alpha".data
        pitchingMatchup := some "bravo".data
        offensiveMatchups := some "charlie".data
        teamMomentum := some "delta".data
        strategicFactors := some "echo".data
        keyPlayers := some "foxtrot".data
        weatherVenue := some "golf".data
        prediction := some "hotel".data } := by
  constructor
  · exact c8_section_extraction.1 _ (by decide) (by decide) (by decide) (by decide)
      (by decide) (by decide) (by decide) (by decide)
  · have h := (c8_section_extraction.2 'a' 'b' 'c' 'd' 'e' 'f' 'g' 'h'
      "lpha".data "ravo".data "harlie".data "elta".data "cho".data "oxtrot".data
      "olf".data "otel".data
      (by decide) (by decide) (by decide) (by decide) (by decide) (by decide)
      (by decide) (by decide) (by decide) (by decide) (by decide) (by decide)
      (by decide) (by decide) (by decide) (by decide)).1
    exact h.trans (by decide)
